import Mathlib

/-!
Shallow embedding of the server-side aggregation pipeline of the
animals-near-me repository: viewport translation (src/server/utils/viewport.ts),
response cache (src/server/utils/cache.ts, src/unnamed/part_008),
deduplication (src/unnamed/part_008), normalizers (src/unnamed/part_009),
provider clients (src/server/providers/ebird.ts, inat.ts) and the
GET /observations handler (src/api/observations/index.ts).

JavaScript numbers are modelled as exact rationals (ℚ); the transcendental
haversine arithmetic is modelled over ℝ.  Fallible upstream HTTP calls are
modelled by an explicit outcome type.  Query-string construction, logging and
the raw fetch transport are I/O and are not part of the observable behaviour
modelled here.
-/

/-! ### JavaScript primitive models -/

/-- Truthiness of a possibly-absent JS string: `undefined` and `""` are falsy. -/
def jsTruthyStr : Option String → Bool
  | none => false
  | some s => !(s == "")

/-- JS `a || b` on possibly-absent strings. -/
def jsOrStr (a b : Option String) : Option String :=
  if jsTruthyStr a then a else b

/-- JS `a || n` where the fallback is a number interpolated into a template
string (used for the `Date.now()` id fallback in `normalizeEbird`). -/
def jsStrOrNat (a : Option String) (n : ℕ) : String :=
  match a with
  | some s => if s = "" then Nat.repr n else s
  | none => Nat.repr n

/-- JS `String.prototype.split` with a single-character separator, on the
character list: `"" ↦ [""]`, `"a,b" ↦ ["a","b"]`. -/
def splitChar (sep : Char) : List Char → List (List Char)
  | [] => [[]]
  | c :: cs =>
    if c = sep then [] :: splitChar sep cs
    else
      match splitChar sep cs with
      | [] => [[c]]
      | t :: ts => (c :: t) :: ts

/-- JS `s.split(sep)` for a one-character separator. -/
def jsSplit (s : String) (sep : Char) : List String :=
  (splitChar sep s.data).map String.mk

/-- Decimal digit value of a character, if it is a digit. -/
def digitVal (c : Char) : Option ℕ :=
  if '0' ≤ c ∧ c ≤ '9' then some (c.toNat - '0'.toNat) else none

/-- Split a character list into its leading run of decimal digits and the rest. -/
def takeDigits : List Char → List ℕ × List Char
  | [] => ([], [])
  | c :: cs =>
    match digitVal c with
    | some d =>
      let r := takeDigits cs
      (d :: r.1, r.2)
    | none => ([], c :: cs)

/-- Numeric value of a list of decimal digits, most significant first. -/
def natOfDigits (ds : List ℕ) : ℕ := ds.foldl (fun a d => a * 10 + d) 0

/-- Model of JS `parseFloat`: skip leading whitespace, optional sign, then a
leading decimal-literal run (`12`, `12.5`, `.5`, `5.`, garbage suffixes
ignored); `none` stands for `NaN`.  Exponent suffixes and `Infinity` are not
modelled; no claim depends on them. -/
def jsParseFloat (s : String) : Option ℚ :=
  let cs := s.data.dropWhile (fun c => c == ' ' || c == '\t' || c == '\n' || c == '\r')
  let signed : Bool × List Char :=
    match cs with
    | '-' :: t => (true, t)
    | '+' :: t => (false, t)
    | t => (false, t)
  let ipr := takeDigits signed.2
  let fps : List ℕ :=
    match ipr.2 with
    | '.' :: t => (takeDigits t).1
    | _ => []
  if ipr.1 = [] ∧ fps = [] then none
  else
    let mag : ℚ := (natOfDigits ipr.1 : ℚ) + (natOfDigits fps : ℚ) / (10 ^ fps.length)
    some (if signed.1 then -mag else mag)

/-- JS `Array.prototype.join`. -/
def jsJoin (sep : String) : List String → String
  | [] => ""
  | [s] => s
  | s :: t :: rest => s ++ sep ++ jsJoin sep (t :: rest)

/-- Replace the first occurrence of `pat` by `rep` in a character list
(JS `String.prototype.replace` with a string pattern). -/
def replaceFirstAux (pat rep : List Char) : List Char → List Char
  | [] => []
  | c :: cs =>
    if pat.isPrefixOf (c :: cs) then rep ++ (c :: cs).drop pat.length
    else c :: replaceFirstAux pat rep cs

/-- JS `s.replace(pat, rep)` with a plain-string pattern (first occurrence only). -/
def jsReplaceFirst (s pat rep : String) : String :=
  String.mk (replaceFirstAux pat.data rep.data s.data)

/-- Model of JS `new Date(s).toISOString()`.  Calendar formatting is opaque
string-to-string processing with no bearing on any claim; it is modelled as
the identity. -/
def jsDateISO (s : String) : String := s

/-- Render a rational produced by the cache-key rounding as JS renders the
corresponding number: optional sign, integer part, then fraction digits with
trailing zeros trimmed (the rounded values have denominator dividing 1000, so
30 fraction digits of fuel are more than enough). -/
def fracDigits : ℕ → ℚ → List ℕ
  | 0, _ => []
  | fuel + 1, x =>
    if x = 0 then []
    else
      let y := x * 10
      let d := ⌊y⌋
      d.toNat :: fracDigits fuel (y - d)

/-- Decimal rendering of a rational, JS-number style (`37.77`, `-122.42`, `200`). -/
def ratToString (q : ℚ) : String :=
  let sign := if q < 0 then "-" else ""
  let a := |q|
  let ip := (⌊a⌋).toNat
  let ds := fracDigits 30 (a - ⌊a⌋)
  if ds.length = 0 then sign ++ Nat.repr ip
  else sign ++ Nat.repr ip ++ "." ++ String.join (ds.map Nat.repr)

/-! ### Shared data model (src/src/types/observation.ts, filters.ts) -/

/-- `Provider` union type: the two upstream data sources. -/
inductive Provider where
  | inat
  | ebird
deriving DecidableEq

/-- Runtime string value of a `Provider` variant. -/
def providerName : Provider → String
  | .inat => "inat"
  | .ebird => "ebird"

/-- The 11 coarse `TaxaBucket` categories. -/
inductive TaxaBucket where
  | Bird
  | Mammal
  | Reptile
  | Amphibian
  | Fish
  | Insect
  | Arachnid
  | Mollusk
  | Plant
  | Fungi
  | Other
deriving DecidableEq

/-- Runtime string value of a `TaxaBucket` variant. -/
def taxaName : TaxaBucket → String
  | .Bird => "Bird"
  | .Mammal => "Mammal"
  | .Reptile => "Reptile"
  | .Amphibian => "Amphibian"
  | .Fish => "Fish"
  | .Insect => "Insect"
  | .Arachnid => "Arachnid"
  | .Mollusk => "Mollusk"
  | .Plant => "Plant"
  | .Fungi => "Fungi"
  | .Other => "Other"

/-- The non-null `RecencyFilter` values. -/
inductive Recency where
  | today
  | this_week
  | this_month
deriving DecidableEq

/-- Runtime string value of a `Recency` variant. -/
def recencyName : Recency → String
  | .today => "today"
  | .this_week => "this_week"
  | .this_month => "this_month"

/-- `FilterParams` (src/src/types/filters.ts): `none`/`[]` means unrestricted. -/
structure FilterParams where
  recency : Option Recency := none
  hasPhoto : Option Bool := none
  taxa : List TaxaBucket := []
  provider : List Provider := []
deriving DecidableEq

/-- Fields of a raw eBird record read by `normalizeEbird` (src/unnamed/part_009). -/
structure EbirdRaw where
  obsId : Option String := none
  subId : Option String := none
  lat : ℚ := 0
  lng : ℚ := 0
  obsDt : Option String := none
  obsDateTime : Option String := none
  locName : Option String := none
  comName : Option String := none
  sciName : Option String := none
  speciesCode : Option String := none
deriving DecidableEq

/-- Fields of an iNaturalist `taxon` object read by `normalizeInat`. -/
structure InatTaxon where
  name : Option String := none
  preferred_common_name : Option String := none
  iconic_taxon_name : Option String := none
deriving DecidableEq

/-- One entry of an iNaturalist `photos` array. -/
structure InatPhoto where
  url : Option String := none
deriving DecidableEq

/-- Fields of a raw iNaturalist record read by `normalizeInat`. -/
structure InatRaw where
  id : Int
  location : Option String := none
  observed_on_string : Option String := none
  time_observed_at : Option String := none
  place_guess : Option String := none
  taxon : Option InatTaxon := none
  photos : List InatPhoto := []
deriving DecidableEq

/-- The opaque `raw: any` diagnostic payload carried on each observation. -/
inductive RawPayload where
  | ebird (e : EbirdRaw)
  | inat (i : InatRaw)
deriving DecidableEq

/-- The shared `Observation` schema (src/src/types/observation.ts). -/
structure Observation where
  id : String
  provider : Provider
  lat : ℚ
  lng : ℚ
  observedAt : Option String := none
  placeGuess : Option String := none
  commonName : Option String := none
  scientificName : Option String := none
  taxaBucket : TaxaBucket
  photoUrl : Option String := none
  detailUrl : Option String := none
  raw : RawPayload
deriving DecidableEq

/-! ### Viewport translation (src/server/utils/viewport.ts) -/

/-- A map viewport: center plus full lat/lng spans. -/
structure Viewport where
  lat : ℚ
  lng : ℚ
  latDelta : ℚ
  lngDelta : ℚ
deriving DecidableEq

/-- NE/SW corner pair. -/
structure BoundingBox where
  ne : ℚ × ℚ
  sw : ℚ × ℚ
deriving DecidableEq

/-- Center point plus radius in km. -/
structure CenterRadius where
  center : ℚ × ℚ
  radiusKm : ℚ
deriving DecidableEq

/-- `viewportToBoundingBox`: NE = center + half-deltas, SW = center − half-deltas. -/
def viewportToBoundingBox (viewport : Viewport) : BoundingBox :=
  { ne := (viewport.lat + viewport.latDelta / 2, viewport.lng + viewport.lngDelta / 2)
    sw := (viewport.lat - viewport.latDelta / 2, viewport.lng - viewport.lngDelta / 2) }

/-- `viewportToCenterRadius`: radius = average of the deltas × 111 km / 2,
capped at 50 km for eBird. -/
def viewportToCenterRadius (viewport : Viewport) : CenterRadius :=
  let avgDelta := (viewport.latDelta + viewport.lngDelta) / 2
  let radiusKm := avgDelta * 111 / 2
  { center := (viewport.lat, viewport.lng)
    radiusKm := min radiusKm 50 }

open Classical in
/-- JS `Math.atan2` (the branch with x > 0 is the only one the proofs below
ever evaluate; the remaining branches follow the standard atan2 definition,
with `atan2 0 0 = 0` as in JS). -/
noncomputable def atan2 (y x : ℝ) : ℝ :=
  if 0 < x then Real.arctan (y / x)
  else if x < 0 then
    (if 0 ≤ y then Real.arctan (y / x) + Real.pi else Real.arctan (y / x) - Real.pi)
  else
    (if 0 < y then Real.pi / 2 else if y < 0 then -(Real.pi / 2) else 0)

/-- `distanceKm`: great-circle distance between two points via the haversine
formula, Earth radius 6371 km. -/
noncomputable def distanceKm (lat1 lng1 lat2 lng2 : ℚ) : ℝ :=
  let R : ℝ := 6371
  let dLat : ℝ := ((lat2 : ℝ) - (lat1 : ℝ)) * Real.pi / 180
  let dLng : ℝ := ((lng2 : ℝ) - (lng1 : ℝ)) * Real.pi / 180
  let a : ℝ :=
    Real.sin (dLat / 2) * Real.sin (dLat / 2) +
      Real.cos ((lat1 : ℝ) * Real.pi / 180) * Real.cos ((lat2 : ℝ) * Real.pi / 180) *
        (Real.sin (dLng / 2) * Real.sin (dLng / 2))
  let c : ℝ := 2 * atan2 (Real.sqrt a) (Real.sqrt (1 - a))
  R * c

/-! ### Normalizers (src/unnamed/part_009) -/

/-- `mapInatTaxa`: fixed lookup from `iconic_taxon_name` to a `TaxaBucket`;
falsy or unmapped input yields `Other`. -/
def mapInatTaxa : Option String → TaxaBucket
  | none => .Other
  | some s =>
    if s = "" then .Other
    else if s = "Aves" then .Bird
    else if s = "Mammalia" then .Mammal
    else if s = "Reptilia" then .Reptile
    else if s = "Amphibia" then .Amphibian
    else if s = "Actinopterygii" then .Fish
    else if s = "Insecta" then .Insect
    else if s = "Arachnida" then .Arachnid
    else if s = "Mollusca" then .Mollusk
    else if s = "Plantae" then .Plant
    else if s = "Fungi" then .Fungi
    else .Other

/-- `normalizeEbird`: id is `"ebird-" + (obsId || subId || Date.now())`;
`now` models the `Date.now()` call at normalization time. -/
def normalizeEbird (now : ℕ) (ebirdData : EbirdRaw) : Observation :=
  let id := "ebird-" ++ jsStrOrNat (jsOrStr ebirdData.obsId ebirdData.subId) now
  { id := id
    provider := .ebird
    lat := ebirdData.lat
    lng := ebirdData.lng
    observedAt := jsOrStr ebirdData.obsDt ebirdData.obsDateTime
    placeGuess := ebirdData.locName
    commonName := ebirdData.comName
    scientificName := ebirdData.sciName
    taxaBucket := .Bird
    photoUrl := none
    detailUrl :=
      match ebirdData.speciesCode with
      | some c => if c = "" then none else some ("https://ebird.org/species/" ++ c)
      | none => none
    raw := .ebird ebirdData }

/-- `normalizeInat`: id is `"inat-" + inatData.id`; `"lat,lng"` location string
is split and parsed (an unparsable component, `NaN` in JS, is idealized as 0 —
no claim depends on such records); first photo with the square→medium
size-variant substitution. -/
def normalizeInat (inatData : InatRaw) : Observation :=
  let taxon := inatData.taxon.getD {}
  let bestPhotoUrl : Option String :=
    match inatData.photos.head? with
    | some p => p.url
    | none => none
  let photoUrl : Option String :=
    match bestPhotoUrl with
    | some u =>
      if u = "" then none
      else
        let r := jsReplaceFirst u "square" "medium"
        some (if r = "" then u else r)
    | none => none
  { id := "inat-" ++ toString inatData.id
    provider := .inat
    lat :=
      match inatData.location with
      | none => 0
      | some s => ((jsSplit s ',').headD "" |> jsParseFloat).getD 0
    lng :=
      match inatData.location with
      | none => 0
      | some s =>
        match (jsSplit s ',')[1]? with
        | some t => (jsParseFloat t).getD 0
        | none => 0
    observedAt :=
      match inatData.observed_on_string with
      | some s => if s = "" then inatData.time_observed_at else some (jsDateISO s)
      | none => inatData.time_observed_at
    placeGuess := inatData.place_guess
    commonName := jsOrStr taxon.preferred_common_name taxon.name
    scientificName := taxon.name
    taxaBucket := mapInatTaxa taxon.iconic_taxon_name
    photoUrl := photoUrl
    detailUrl := some ("https://www.inaturalist.org/observations/" ++ toString inatData.id)
    raw := .inat inatData }

/-! ### Deduplication (src/unnamed/part_008, deduplicateObservations) -/

/-- The duplicate test applied between an already-accepted record and a
candidate: same species — JS `===` on the possibly-undefined `commonName` or
`scientificName` fields — and haversine distance below 30 m (0.03 km). -/
def IsDupObs (existing obs : Observation) : Prop :=
  (existing.commonName = obs.commonName ∨ existing.scientificName = obs.scientificName) ∧
    distanceKm existing.lat existing.lng obs.lat obs.lng < 0.03

open Classical in
/-- The loop of `deduplicateObservations`: `seen` is the set of accepted ids,
`result` the accepted records in order. -/
noncomputable def dedupGo : List Observation → List String → List Observation → List Observation
  | [], _, result => result
  | obs :: rest, seen, result =>
    if obs.id ∈ seen then dedupGo rest seen result
    else if ∃ existing ∈ result, IsDupObs existing obs then dedupGo rest seen result
    else dedupGo rest (obs.id :: seen) (result ++ [obs])

/-- `deduplicateObservations`: drop exact id repeats and spatial+species
duplicates of already-accepted records, preserving first-occurrence order. -/
noncomputable def deduplicateObservations (observations : List Observation) : List Observation :=
  dedupGo observations [] []

/-! ### Cache (src/unnamed/part_008: getCacheKey with filters, getCached, setCached) -/

/-- One cache value: observations plus capture timestamp (ms). -/
structure CacheEntry where
  observations : List Observation
  timestamp : ℕ
deriving DecidableEq

/-- The in-memory `Map`, as its entry list in insertion order. -/
abbrev Cache := List (String × CacheEntry)

/-- Cache TTL: 5 minutes in ms. -/
def CACHE_TTL_MS : ℕ := 5 * 60 * 1000

/-- The `filterParts` array built inside `getCacheKey`: one `tag:value` string
per active filter, taxa and provider lists sorted (JS default string sort)
before joining. -/
def filterPartsOf (filters : FilterParams) : List String :=
  (match filters.recency with
   | some r => ["recency:" ++ recencyName r]
   | none => []) ++
  (match filters.hasPhoto with
   | some b => ["hasPhoto:" ++ (if b then "true" else "false")]
   | none => []) ++
  (if 0 < filters.taxa.length then
    ["taxa:" ++ jsJoin "," (List.insertionSort (fun a b : String => a ≤ b) (filters.taxa.map taxaName))]
   else []) ++
  (if 0 < filters.provider.length then
    ["provider:" ++ jsJoin "," (List.insertionSort (fun a b : String => a ≤ b) (filters.provider.map providerName))]
   else [])

/-- `getCacheKey`: center rounded to 2 decimals, deltas to 3, followed by the
active-filter parts joined with `|`. -/
def getCacheKey (lat lng latDelta lngDelta : ℚ) (filters : Option FilterParams) : String :=
  let roundedLat := (round (lat * 100) : ℚ) / 100
  let roundedLng := (round (lng * 100) : ℚ) / 100
  let roundedLatDelta := (round (latDelta * 1000) : ℚ) / 1000
  let roundedLngDelta := (round (lngDelta * 1000) : ℚ) / 1000
  let key := ratToString roundedLat ++ "," ++ ratToString roundedLng ++ "," ++
    ratToString roundedLatDelta ++ "," ++ ratToString roundedLngDelta
  match filters with
  | none => key
  | some f =>
    let filterParts := filterPartsOf f
    if 0 < filterParts.length then key ++ "|" ++ jsJoin "|" filterParts else key

/-- `getCached`: hit while age ≤ TTL; a stale entry is deleted on read.  The
pair returned is (hit, cache after the read). -/
def getCached (key : String) (cache : Cache) (now : ℕ) : Option (List Observation) × Cache :=
  match cache.find? (fun p => p.1 == key) with
  | none => (none, cache)
  | some p =>
    if CACHE_TTL_MS < now - p.2.timestamp then
      (none, cache.filter (fun q => !(q.1 == key)))
    else (some p.2.observations, cache)

/-- JS `Map.set`: overwrite in place if the key exists, else append. -/
def mapSet (cache : Cache) (key : String) (e : CacheEntry) : Cache :=
  if cache.any (fun p => p.1 == key) then
    cache.map (fun p => if p.1 == key then (key, e) else p)
  else cache ++ [(key, e)]

/-- JS `Map.delete`. -/
def mapDelete (cache : Cache) (key : String) : Cache :=
  cache.filter (fun p => !(p.1 == key))

/-- `setCached`: insert/overwrite with the current timestamp; if more than 100
entries remain, sort all entries by timestamp ascending (JS stable sort) and
delete the oldest 20. -/
def setCached (key : String) (observations : List Observation) (now : ℕ) (cache : Cache) : Cache :=
  let c := mapSet cache key ⟨observations, now⟩
  if 100 < c.length then
    let entries := List.insertionSort (fun a b : String × CacheEntry => a.2.timestamp ≤ b.2.timestamp) c
    (entries.take 20).foldl (fun acc p => mapDelete acc p.1) c
  else c

/-! ### Provider clients (src/server/providers/ebird.ts, inat.ts)

The HTTP transport is modelled by an explicit outcome: a network/timeout
failure, or a response with an `ok` flag and a parsed body (`none` = the
`.json()` call threw on a malformed body).  URL construction carries no
observable data and is not modelled. -/

/-- Outcome of one upstream `fetch`. -/
inductive HttpOutcome (β : Type) where
  | netError
  | response (ok : Bool) (body : Option β)

/-- Parsed JSON body of an eBird response: an array of records, or some other
JSON value (the code checks `Array.isArray`). -/
inductive EbirdBody where
  | arr (records : List EbirdRaw)
  | notArr

/-- Parsed JSON body of an iNaturalist response: with or without a `results`
array (`data.results || []`). -/
inductive InatBody where
  | results (rs : List InatRaw)
  | noResults

/-- eBird hard radius ceiling (km). -/
def MAX_RADIUS_KM : ℚ := 50

/-- `fetchEbirdSingle`: any transport failure (network error, non-2xx,
malformed body) and any non-array body yield `[]`; an array body is normalized
record by record. -/
def fetchEbirdSingle (http : HttpOutcome EbirdBody) (now : ℕ) : List Observation :=
  match http with
  | .netError => []
  | .response ok body =>
    if ok then
      match body with
      | some (.arr records) => records.map (normalizeEbird now)
      | some .notArr => []
      | none => []
    else []

/-- `createTiles`: 3×3 grid for radius > 100 km, else 2×2; sub-centers offset
from the center by multiples of the tile spacing converted to degrees. -/
noncomputable def createTiles (center : ℚ × ℚ) (radiusKm : ℚ) : List (ℝ × ℝ) :=
  let gridSize : ℕ := if 100 < radiusKm then 3 else 2
  let tileSpacing : ℚ := radiusKm * 2 / gridSize
  ((List.range gridSize).map (fun i =>
    (List.range gridSize).map (fun j =>
      let offsetLat : ℝ := (((i : ℝ) - ((gridSize : ℝ) - 1) / 2) * (tileSpacing : ℝ)) / 111
      let offsetLng : ℝ := (((j : ℝ) - ((gridSize : ℝ) - 1) / 2) * (tileSpacing : ℝ)) /
        (111 * Real.cos ((center.1 : ℝ) * Real.pi / 180))
      (((center.1 : ℝ) + offsetLat, (center.2 : ℝ) + offsetLng) : ℝ × ℝ)))).flatten

/-- The sub-requests `fetchRecentEbird` issues for a given center and radius:
each element is a (sub-center, dist-parameter) pair, the dist parameter being
`min radius 50` as set by `fetchEbirdSingle`'s URL construction.  A radius
within the 50 km ceiling yields one direct request; a larger radius yields one
bounded request per tile of `createTiles`. -/
noncomputable def ebirdRequestPlan (center : ℚ × ℚ) (radiusKm : ℚ) : List ((ℝ × ℝ) × ℚ) :=
  if radiusKm ≤ MAX_RADIUS_KM then [((((center.1 : ℝ), (center.2 : ℝ)) : ℝ × ℝ), min radiusKm MAX_RADIUS_KM)]
  else (createTiles center radiusKm).map (fun t => (t, MAX_RADIUS_KM))

/-- `fetchRecentEbird`: throws (`none`) when `EBIRD_API_KEY` is missing; fetch
directly when the radius is within the 50 km ceiling, otherwise fetch all
tiles of `createTiles` and flatten.  Every sub-request shares the one modelled
transport outcome. -/
noncomputable def fetchRecentEbird (apiKey : Bool) (http : HttpOutcome EbirdBody) (now : ℕ)
    (center : ℚ × ℚ) (radiusKm : ℚ) : Option (List Observation) :=
  if !apiKey then none
  else if radiusKm ≤ MAX_RADIUS_KM then some (fetchEbirdSingle http now)
  else some (((createTiles center radiusKm).map (fun _tile => fetchEbirdSingle http now)).flatten)

/-- `fetchInat`: any transport failure yields `[]`; a body with a `results`
array is filtered to records with a truthy `location` and normalized. -/
def fetchInat (http : HttpOutcome InatBody) : List Observation :=
  match http with
  | .netError => []
  | .response ok body =>
    if ok then
      match body with
      | some (.results rs) => (rs.filter (fun o => jsTruthyStr o.location)).map normalizeInat
      | some .noResults => []
      | none => []
    else []

/-! ### GET /observations handler (src/api/observations/index.ts) -/

/-- The request query parameters, each as the raw string when present. -/
structure Query where
  lat : Option String := none
  lng : Option String := none
  latDelta : Option String := none
  lngDelta : Option String := none
  recency : Option String := none
  hasPhoto : Option String := none
  taxa : Option String := none
  provider : Option String := none

/-- The process environment and the upstream transport outcomes of one
request: whether `EBIRD_API_KEY` is set, the eBird and iNaturalist HTTP
outcomes, and `Date.now()`. -/
structure ProviderEnv where
  ebirdApiKey : Bool
  ebirdHttp : HttpOutcome EbirdBody
  inatHttp : HttpOutcome InatBody
  now : ℕ

/-- The observable outcome of one handler run: HTTP status, response
observations, whether each provider client was invoked, and the cache left
behind. -/
structure HandlerResult where
  status : ℕ
  observations : List Observation
  calledEbird : Bool
  calledInat : Bool
  cache : Cache

/-- `parseFloat(req.query.p as string)`: an absent parameter coerces to the
string "undefined", hence `NaN`; `none` stands for `NaN`. -/
def parseQueryFloat (p : Option String) : Option ℚ :=
  match p with
  | none => none
  | some s => jsParseFloat s

/-- The taxa filter-guard of the handler: a validated `TaxaBucket` from its
runtime string, or `none` for an unrecognized value. -/
def taxaOfName (s : String) : Option TaxaBucket :=
  if s = "Bird" then some .Bird
  else if s = "Mammal" then some .Mammal
  else if s = "Reptile" then some .Reptile
  else if s = "Amphibian" then some .Amphibian
  else if s = "Fish" then some .Fish
  else if s = "Insect" then some .Insect
  else if s = "Arachnid" then some .Arachnid
  else if s = "Mollusk" then some .Mollusk
  else if s = "Plant" then some .Plant
  else if s = "Fungi" then some .Fungi
  else if s = "Other" then some .Other
  else none

/-- The provider filter-guard: `"ebird"` or `"inat"`, anything else dropped. -/
def providerOfName (s : String) : Option Provider :=
  if s = "ebird" then some .ebird
  else if s = "inat" then some .inat
  else none

/-- `req.query.taxa ? split(",").filter(valid) : []` — a falsy parameter
yields the empty (unrestricted) list; unrecognized values are dropped. -/
def parseTaxaParam (p : Option String) : List TaxaBucket :=
  match p with
  | none => []
  | some s => if s = "" then [] else (jsSplit s ',').filterMap taxaOfName

/-- `req.query.provider ? split(",").filter(ebird|inat) : []`. -/
def parseProviderParam (p : Option String) : List Provider :=
  match p with
  | none => []
  | some s => if s = "" then [] else (jsSplit s ',').filterMap providerOfName

/-- `req.query.hasPhoto ? hasPhoto === "true" : null`. -/
def parseHasPhoto (p : Option String) : Option Bool :=
  match p with
  | none => none
  | some s => if s = "" then none else some (s = "true")

/-- `req.query.recency || null` as the raw string. -/
def parseRecencyRaw (p : Option String) : Option String :=
  match p with
  | none => none
  | some s => if s = "" then none else some s

/-- A validated recency value from its runtime string. -/
def recencyOfName (s : String) : Option Recency :=
  if s = "today" then some .today
  else if s = "this_week" then some .this_week
  else if s = "this_month" then some .this_month
  else none

/-- The recency-to-days table used for the eBird `back` parameter (default 7)
and the iNaturalist `d1` window (default 14). -/
def recencyDays : Recency → ℕ
  | .today => 1
  | .this_week => 7
  | .this_month => 30

/-- The GET /observations handler.  Stages in source order: 405 on non-GET;
parse + validate the four numeric parameters (400); parse filters and
validate the recency value (400); cache probe; viewport translation; provider
fan-out (eBird skipped entirely when `hasPhoto=true`); missing `EBIRD_API_KEY`
propagates as a thrown error caught by the surrounding try/catch (500);
combine, deduplicate, post-filter, cache, 200. -/
noncomputable def handler (method : String) (q : Query) (env : ProviderEnv) (cache : Cache) :
    HandlerResult :=
  if method ≠ "GET" then ⟨405, [], false, false, cache⟩
  else
    let latQ := parseQueryFloat q.lat
    let lngQ := parseQueryFloat q.lng
    let latDeltaQ := parseQueryFloat q.latDelta
    let lngDeltaQ := parseQueryFloat q.lngDelta
    if latQ = none ∨ lngQ = none ∨ latDeltaQ = none ∨ lngDeltaQ = none ∨
        latDeltaQ.getD 0 ≤ 0 ∨ lngDeltaQ.getD 0 ≤ 0 then
      ⟨400, [], false, false, cache⟩
    else
      let lat := latQ.getD 0
      let lng := lngQ.getD 0
      let latDelta := latDeltaQ.getD 0
      let lngDelta := lngDeltaQ.getD 0
      let recencyRaw := parseRecencyRaw q.recency
      let recencyInvalid : Bool :=
        match recencyRaw with
        | some s => recencyOfName s == none
        | none => false
      if recencyInvalid then ⟨400, [], false, false, cache⟩
      else
        let filters : FilterParams :=
          { recency := recencyRaw.bind recencyOfName
            hasPhoto := parseHasPhoto q.hasPhoto
            taxa := parseTaxaParam q.taxa
            provider := parseProviderParam q.provider }
        let cacheKey := getCacheKey lat lng latDelta lngDelta (some filters)
        match getCached cacheKey cache env.now with
        | (some cached, cache') => ⟨200, cached, false, false, cache'⟩
        | (none, cache') =>
          let viewport : Viewport := ⟨lat, lng, latDelta, lngDelta⟩
          let _bbox := viewportToBoundingBox viewport
          let centerRadius := viewportToCenterRadius viewport
          let _backDays := match filters.recency with | some r => recencyDays r | none => 7
          let _recentDays := match filters.recency with | some r => recencyDays r | none => 14
          let shouldFetchEbird : Bool := filters.provider.isEmpty || filters.provider.contains .ebird
          let shouldFetchInat : Bool := filters.provider.isEmpty || filters.provider.contains .inat
          let shouldFetchEbirdWithPhotoFilter : Bool :=
            shouldFetchEbird && !(filters.hasPhoto == some true)
          let ebirdResult : Option (List Observation) :=
            if shouldFetchEbirdWithPhotoFilter then
              fetchRecentEbird env.ebirdApiKey env.ebirdHttp env.now
                centerRadius.center centerRadius.radiusKm
            else some []
          let inatResult : List Observation :=
            if shouldFetchInat then fetchInat env.inatHttp else []
          match ebirdResult with
          | none => ⟨500, [], shouldFetchEbirdWithPhotoFilter, shouldFetchInat, cache'⟩
          | some ebirdObservations =>
            let allObservations := ebirdObservations ++ inatResult
            let deduplicated := deduplicateObservations allObservations
            let filtered1 :=
              if 0 < filters.taxa.length then
                deduplicated.filter (fun o => filters.taxa.contains o.taxaBucket)
              else deduplicated
            let filtered2 :=
              if 0 < filters.provider.length then
                filtered1.filter (fun o => filters.provider.contains o.provider)
              else filtered1
            let filtered3 :=
              match filters.hasPhoto with
              | some true => filtered2.filter (fun o => o.photoUrl.isSome)
              | some false => filtered2.filter (fun o => o.photoUrl.isNone)
              | none => filtered2
            let cache2 := setCached cacheKey filtered3 env.now cache'
            ⟨200, filtered3, shouldFetchEbirdWithPhotoFilter, shouldFetchInat, cache2⟩

/-! ### Auxiliary definitions for the verification layer -/

/-- Semantic equality of two `FilterParams`: same recency, same photo
tri-state, and the taxa and provider lists contain the same elements up to
order. -/
def SemEqFilters (f1 f2 : FilterParams) : Prop :=
  f1.recency = f2.recency ∧ f1.hasPhoto = f2.hasPhoto ∧
    f1.taxa.Perm f2.taxa ∧ f1.provider.Perm f2.provider

/-- A transport failure as the spec describes it: network/timeout error,
non-2xx response, or a body on which `.json()` throws. -/
def IsTransportFailure {β : Type} (o : HttpOutcome β) : Prop :=
  o = .netError ∨ (∃ b, o = .response false b) ∨ o = .response true none

/-- Packaging of one `setCached` argument triple (key, now, observations). -/
def toCacheEntry (e : String × ℕ × List Observation) : String × CacheEntry :=
  (e.1, ⟨e.2.2, e.2.1⟩)

/-- Fold `setCached` over a sequence of (key, now, observations) triples. -/
def setCachedAll (cache : Cache) (inserts : List (String × ℕ × List Observation)) : Cache :=
  inserts.foldl (fun c e => setCached e.1 e.2.2 e.2.1 c) cache

/-- Two records of different species, both lacking a common name, at the same
coordinates (dedup counterexample input). -/
def obsP : Observation :=
  { id := "inat-1", provider := .inat, lat := 1, lng := 2,
    commonName := none, scientificName := some "Turdus migratorius",
    taxaBucket := .Bird, raw := .inat { id := 1 } }

/-- Companion record to `obsP`: different scientific name, same coordinates. -/
def obsQ : Observation :=
  { id := "inat-2", provider := .inat, lat := 1, lng := 2,
    commonName := none, scientificName := some "Corvus corax",
    taxaBucket := .Bird, raw := .inat { id := 2 } }

/-- First record of the transitivity-chain triple: common name Crow. -/
def obsA : Observation :=
  { id := "ebird-a", provider := .ebird, lat := 3, lng := 4,
    commonName := some "Crow", scientificName := some "Corvus alpha",
    taxaBucket := .Bird, raw := .ebird {} }

/-- Second record: same common name as `obsA`, same scientific name as `obsC`. -/
def obsB : Observation :=
  { id := "ebird-b", provider := .ebird, lat := 3, lng := 4,
    commonName := some "Crow", scientificName := some "Corvus beta",
    taxaBucket := .Bird, raw := .ebird {} }

/-- Third record: matches `obsB` on scientific name but not `obsA` on any field. -/
def obsC : Observation :=
  { id := "ebird-c", provider := .ebird, lat := 3, lng := 4,
    commonName := some "Raven", scientificName := some "Corvus beta",
    taxaBucket := .Bird, raw := .ebird {} }

/-- A fully valid filterless query (lat=1, lng=2, deltas=1). -/
def qValid : Query :=
  { lat := some "1", lng := some "2", latDelta := some "1", lngDelta := some "1" }

/-- A query missing the `lat` parameter. -/
def qMissingLat : Query :=
  { lng := some "0", latDelta := some "1", lngDelta := some "1" }

/-- A query whose latitude 200 is outside [-90, 90] but otherwise valid. -/
def qLat200 : Query :=
  { lat := some "200", lng := some "0", latDelta := some "1", lngDelta := some "1" }

/-- A valid query whose taxa parameter holds only unrecognized values. -/
def qJunkTaxa : Query :=
  { lat := some "1", lng := some "2", latDelta := some "1", lngDelta := some "1",
    taxa := some "Dinosaur,Dragon" }

/-- A valid query whose provider parameter holds only an unrecognized value. -/
def qJunkProvider : Query :=
  { lat := some "1", lng := some "2", latDelta := some "1", lngDelta := some "1",
    provider := some "gbif" }

/-- An environment where both providers answer 200 with empty result arrays. -/
def envOk : ProviderEnv :=
  { ebirdApiKey := true, ebirdHttp := .response true (some (.arr [])),
    inatHttp := .response true (some (.results [])), now := 7 }

/-- An environment where the iNaturalist transport fails. -/
def envInatFail : ProviderEnv :=
  { ebirdApiKey := true, ebirdHttp := .response true (some (.arr [])),
    inatHttp := .netError, now := 7 }

/-- An environment where the eBird transport fails. -/
def envEbirdFail : ProviderEnv :=
  { ebirdApiKey := true, ebirdHttp := .netError,
    inatHttp := .response true (some (.results [])), now := 7 }

/-- The recency part of the cache key, when active. -/
def recPartOf (f : FilterParams) : Option String :=
  f.recency.map (fun r => "recency:" ++ recencyName r)

/-- The hasPhoto part of the cache key, when active. -/
def photoPartOf (f : FilterParams) : Option String :=
  f.hasPhoto.map (fun b => "hasPhoto:" ++ (if b then "true" else "false"))

/-- The taxa part of the cache key, when active. -/
def taxaPartOf (f : FilterParams) : Option String :=
  if 0 < f.taxa.length then
    some ("taxa:" ++ jsJoin "," (List.insertionSort (fun a b : String => a ≤ b) (f.taxa.map taxaName)))
  else none

/-- The provider part of the cache key, when active. -/
def providerPartOf (f : FilterParams) : Option String :=
  if 0 < f.provider.length then
    some ("provider:" ++ jsJoin "," (List.insertionSort (fun a b : String => a ≤ b) (f.provider.map providerName)))
  else none

/-- A zero-or-one-element segment of the filter-parts list. -/
def optPart : Option String → List String
  | none => []
  | some s => [s]

/-- The first element of a part list whose leading character is `c`. -/
def pickPart (c : Char) (l : List String) : Option String :=
  l.find? (fun s => s.data.head? == some c)

/-- The viewport fingerprint prefix of every cache key. -/
def viewportKeyOf (lat lng latDelta lngDelta : ℚ) : String :=
  ratToString ((round (lat * 100) : ℚ) / 100) ++ "," ++
    ratToString ((round (lng * 100) : ℚ) / 100) ++ "," ++
    ratToString ((round (latDelta * 1000) : ℚ) / 1000) ++ "," ++
    ratToString ((round (lngDelta * 1000) : ℚ) / 1000)

/-! ### Theorems -/

/-- C1.  The claim fails on the code: `viewportToCenterRadius` caps the radius
at 50 km before `fetchRecentEbird` ever sees it, so the tiling branch
(`radius > 50`) is unreachable from the orchestrator.  For latDelta = lngDelta
= 2.0 the resolved radius is 50 km (not ≈111 km) and the plan is a single
request — never a 3×3 (or even 2×2) tiled fetch.  The first conjunct shows
this for every viewport, the second evaluates the spec's Scenario B input. -/
theorem ebird_tiling_unreachable :
    (∀ v : Viewport,
      (viewportToCenterRadius v).radiusKm ≤ MAX_RADIUS_KM ∧
        (ebirdRequestPlan (viewportToCenterRadius v).center
          (viewportToCenterRadius v).radiusKm).length = 1) ∧
    ((viewportToCenterRadius ⟨37.7749, -122.4194, 2, 2⟩).radiusKm = 50 ∧
      (ebirdRequestPlan (viewportToCenterRadius ⟨37.7749, -122.4194, 2, 2⟩).center
        (viewportToCenterRadius ⟨37.7749, -122.4194, 2, 2⟩).radiusKm).length = 1) := by
  constructor
  · intro v
    have hle : (viewportToCenterRadius v).radiusKm ≤ MAX_RADIUS_KM := by
      simp [viewportToCenterRadius, MAX_RADIUS_KM]
    exact ⟨hle, by simp [ebirdRequestPlan, hle]⟩
  · have hr : (viewportToCenterRadius ⟨37.7749, -122.4194, 2, 2⟩).radiusKm = 50 := by
      simp [viewportToCenterRadius]
      norm_num
    refine ⟨hr, ?_⟩
    rw [hr]
    simp [ebirdRequestPlan, MAX_RADIUS_KM]

/-- Inserting a key absent from the map appends the entry. -/
lemma mapSet_fresh (c : Cache) (k : String) (e : CacheEntry)
    (h : ∀ p ∈ c, p.1 ≠ k) : mapSet c k e = c ++ [(k, e)] := by
  have hany : c.any (fun p => p.1 == k) = false := by
    rw [List.any_eq_false]
    intro p hp
    simpa using h p hp
  simp [mapSet, hany]

/-- Overwriting an existing key makes lookup return the new entry. -/
lemma find?_map_overwrite (k : String) (e : CacheEntry) :
    ∀ c : Cache, (∃ p ∈ c, p.1 = k) →
      (c.map (fun p => if p.1 == k then (k, e) else p)).find? (fun p => p.1 == k) =
        some (k, e) := by
  intro c
  induction c with
  | nil => simp
  | cons q t ih =>
    intro hex
    by_cases hq : q.1 = k
    · simp [List.find?, hq]
    · have hex' : ∃ p ∈ t, p.1 = k := by
        obtain ⟨p, hp, hpk⟩ := hex
        rcases List.mem_cons.1 hp with hp' | hp'
        · exact absurd (hp' ▸ hpk) hq
        · exact ⟨p, hp', hpk⟩
      simp only [List.map_cons]
      rw [if_neg (by simpa using hq)]
      rw [List.find?_cons_of_neg _ (by simpa using hq)]
      exact ih hex'

/-- Lookup after appending a fresh entry finds that entry. -/
lemma find?_append_fresh (k : String) (e : CacheEntry) :
    ∀ c : Cache, (∀ p ∈ c, p.1 ≠ k) →
      (c ++ [(k, e)]).find? (fun p => p.1 == k) = some (k, e) := by
  intro c
  induction c with
  | nil => simp
  | cons q t ih =>
    intro h
    have hq : ¬ q.1 = k := h q (by simp)
    rw [List.cons_append, List.find?_cons_of_neg _ (by simpa using hq)]
    exact ih (fun p hp => h p (by simp [hp]))

/-- After `mapSet`, looking the key up finds exactly the new entry. -/
lemma mapSet_find (c : Cache) (k : String) (e : CacheEntry) :
    (mapSet c k e).find? (fun p => p.1 == k) = some (k, e) := by
  unfold mapSet
  by_cases h : c.any (fun p => p.1 == k) = true
  · rw [if_pos h]
    rw [List.any_eq_true] at h
    apply find?_map_overwrite
    obtain ⟨p, hp, hpk⟩ := h
    exact ⟨p, hp, by simpa using hpk⟩
  · rw [if_neg h]
    rw [List.any_eq_true] at h
    push_neg at h
    exact find?_append_fresh k e c (fun p hp => by simpa using h p hp)

/-- Inserting a fresh key into a map that stays within the 100-entry ceiling
appends the entry and performs no sweep. -/
lemma setCached_fresh_small (c : Cache) (k : String) (obs : List Observation) (now : ℕ)
    (hfresh : ∀ p ∈ c, p.1 ≠ k) (hsize : c.length + 1 ≤ 100) :
    setCached k obs now c = c ++ [(k, ⟨obs, now⟩)] := by
  unfold setCached
  rw [mapSet_fresh c k _ hfresh, if_neg]
  simp
  omega

/-- Folding fresh, pairwise-distinct keys into a cache that stays within the
ceiling appends the corresponding entries in order. -/
lemma setCachedAll_fresh_small :
    ∀ (es : List (String × ℕ × List Observation)) (c : Cache),
      (∀ e ∈ es, ∀ p ∈ c, p.1 ≠ e.1) →
      (es.map (fun e => e.1)).Nodup →
      c.length + es.length ≤ 100 →
      setCachedAll c es = c ++ es.map toCacheEntry := by
  intro es
  induction es with
  | nil => intro c _ _ _; simp [setCachedAll]
  | cons e t ih =>
    intro c hfresh hnodup hsize
    have hhead : e.1 ∉ t.map (fun x => x.1) := by
      rw [List.map_cons, List.nodup_cons] at hnodup
      exact hnodup.1
    have h1 : setCached e.1 e.2.2 e.2.1 c = c ++ [(e.1, ⟨e.2.2, e.2.1⟩)] :=
      setCached_fresh_small c e.1 e.2.2 e.2.1
        (fun p hp => hfresh e (by simp) p hp)
        (by simp only [List.length_cons] at hsize; omega)
    have h2 : setCachedAll c (e :: t) = setCachedAll (c ++ [(e.1, ⟨e.2.2, e.2.1⟩)]) t := by
      simp [setCachedAll, List.foldl_cons, h1]
    rw [h2, ih]
    · simp [toCacheEntry]
    · intro e' he' p hp
      rcases List.mem_append.1 hp with hpc | hpn
      · exact hfresh e' (List.mem_cons_of_mem _ he') p hpc
      · have hpn' : p = (e.1, (⟨e.2.2, e.2.1⟩ : CacheEntry)) := by simpa using hpn
        subst hpn'
        intro hcontra
        simp only at hcontra
        exact hhead (hcontra ▸ List.mem_map_of_mem (fun x => x.1) he')
    · rw [List.map_cons, List.nodup_cons] at hnodup
      exact hnodup.2
    · have hlen : (c ++ [(e.1, (⟨e.2.2, e.2.1⟩ : CacheEntry))]).length = c.length + 1 := by
        simp
      rw [hlen]
      simp only [List.length_cons] at hsize
      omega

/-- Deleting the keys of a prefix of a map with pairwise-distinct keys leaves
exactly the suffix. -/
lemma foldl_mapDelete_front :
    ∀ (xs ys : Cache), ((xs ++ ys).map (fun p => p.1)).Nodup →
      xs.foldl (fun acc p => mapDelete acc p.1) (xs ++ ys) = ys := by
  intro xs
  induction xs with
  | nil => intro ys _; simp
  | cons x t ih =>
    intro ys hnodup
    have hmap : ((x :: (t ++ ys)).map (fun p => p.1)).Nodup := by simpa using hnodup
    have hx : x.1 ∉ (t ++ ys).map (fun p => p.1) := by
      rw [List.map_cons, List.nodup_cons] at hmap
      exact hmap.1
    have hdel : mapDelete (x :: (t ++ ys)) x.1 = t ++ ys := by
      unfold mapDelete
      rw [List.filter_cons, if_neg (by simp)]
      apply List.filter_eq_self.2
      intro p hp
      have hne : p.1 ≠ x.1 := fun hc => hx (hc ▸ List.mem_map_of_mem (fun q => q.1) hp)
      simp [hne]
    calc (x :: t).foldl (fun acc p => mapDelete acc p.1) ((x :: t) ++ ys)
        = t.foldl (fun acc p => mapDelete acc p.1) (mapDelete (x :: (t ++ ys)) x.1) := by
          simp [List.foldl_cons]
      _ = t.foldl (fun acc p => mapDelete acc p.1) (t ++ ys) := by rw [hdel]
      _ = ys := by
          rw [List.map_cons, List.nodup_cons] at hmap
          exact ih ys hmap.2

/-- C8.  `setCached` inserts or overwrites under the key with the current
timestamp (shown for every call that stays within the 100-entry ceiling, where
no sweep can intervene), and inserting 101 distinct keys with increasing
timestamps into an empty cache leaves exactly the 81 newest entries: the 20
entries with the oldest timestamps — and only those — are deleted by the
sweep triggered on the 101st insert. -/
theorem setCached_insert_and_evict :
    (∀ (cache : Cache) (key : String) (obs : List Observation) (now : ℕ),
      (mapSet cache key ⟨obs, now⟩).length ≤ 100 →
      (setCached key obs now cache).find? (fun p => p.1 == key) = some (key, ⟨obs, now⟩)) ∧
    (∀ es : List (String × ℕ × List Observation),
      es.length = 101 →
      (es.map (fun e => e.1)).Nodup →
      (es.map (fun e => e.2.1)).Pairwise (· < ·) →
      setCachedAll [] es = (es.map toCacheEntry).drop 20) := by
  constructor
  · intro cache key obs now hle
    unfold setCached
    rw [if_neg (by omega)]
    exact mapSet_find cache key ⟨obs, now⟩
  · intro es h101 hnodup htimes
    have hlen1 : (es.drop 100).length = 1 := by simp [List.length_drop, h101]
    obtain ⟨e, he⟩ := List.length_eq_one.1 hlen1
    have hes : es = es.take 100 ++ [e] := by
      conv_lhs => rw [(List.take_append_drop 100 es).symm]
      rw [he]
    have hflen : (es.take 100).length = 100 := by
      rw [List.length_take, h101]
      omega
    have hfkeys : ((es.take 100).map (fun x => x.1)).Nodup := by
      rw [List.map_take]
      exact (List.take_sublist _ _).nodup hnodup
    have hkeysplit : ((es.take 100).map (fun x => x.1) ++ [e.1]).Nodup := by
      have h1 : ((es.take 100 ++ [e]).map (fun x => x.1)).Nodup := hes ▸ hnodup
      simpa [List.map_append] using h1
    have hefront : e.1 ∉ (es.take 100).map (fun x => x.1) := by
      rcases List.nodup_append.1 hkeysplit with ⟨_, _, hdisj⟩
      intro hmem
      exact hdisj hmem (by simp)
    have hc0 : setCachedAll [] (es.take 100) = (es.take 100).map toCacheEntry :=
      setCachedAll_fresh_small (es.take 100) [] (by simp) hfkeys
        (by simp only [List.length_nil, hflen]; omega)
    have hefresh : ∀ p ∈ (es.take 100).map toCacheEntry, p.1 ≠ e.1 := by
      intro p hp hpe
      obtain ⟨x, hx, hxp⟩ := List.mem_map.1 hp
      apply hefront
      have hx1 : x.1 = e.1 := by
        rw [← hpe, ← hxp]
        rfl
      rw [← hx1]
      exact List.mem_map_of_mem (fun y => y.1) hx
    have hmapkeys : ((es.map toCacheEntry).map (fun p => p.1)).Nodup := by
      rw [List.map_map]
      have : ((fun p : String × CacheEntry => p.1) ∘ toCacheEntry) = fun e => e.1 := by
        funext x
        rfl
      rw [this]
      exact hnodup
    have hsorted : (es.map toCacheEntry).Pairwise
        (fun a b : String × CacheEntry => a.2.timestamp ≤ b.2.timestamp) := by
      rw [List.pairwise_map]
      rw [List.pairwise_map] at htimes
      exact htimes.imp (fun h => le_of_lt h)
    have hstep : setCachedAll [] es =
        setCached e.1 e.2.2 e.2.1 ((es.take 100).map toCacheEntry) := by
      conv_lhs => rw [hes]
      rw [setCachedAll, List.foldl_append]
      rw [show (es.take 100).foldl (fun c x => setCached x.1 x.2.2 x.2.1 c) [] =
        setCachedAll [] (es.take 100) from rfl, hc0]
      rfl
    rw [hstep]
    unfold setCached
    rw [mapSet_fresh _ _ _ hefresh]
    have hall : (es.take 100).map toCacheEntry ++ [(e.1, (⟨e.2.2, e.2.1⟩ : CacheEntry))] =
        es.map toCacheEntry := by
      conv_rhs => rw [hes]
      simp [List.map_append, toCacheEntry]
    rw [hall]
    rw [if_pos (by rw [List.length_map, h101]; omega)]
    rw [List.Sorted.insertionSort_eq hsorted]
    have hfold := foldl_mapDelete_front ((es.map toCacheEntry).take 20)
      ((es.map toCacheEntry).drop 20)
      (by rw [List.take_append_drop]; exact hmapkeys)
    rw [List.take_append_drop] at hfold
    exact hfold

/-- Witness for C8 at concrete inputs: a single insert into an empty cache,
and the 101-key increasing-timestamp scenario with keys "0", "1", …, "100". -/
theorem setCached_insert_and_evict_witness :
    (setCached "k" [] 5 []).find? (fun p => p.1 == "k") = some ("k", ⟨[], 5⟩) ∧
    setCachedAll [] ((List.range 101).map (fun i => (Nat.repr i, i, []))) =
      (((List.range 101).map (fun i => (Nat.repr i, i, []))).map toCacheEntry).drop 20 := by
  constructor
  · exact setCached_insert_and_evict.1 [] "k" [] 5 (by decide)
  · exact setCached_insert_and_evict.2 _ (by decide) (by decide) (by decide)

/-- The haversine distance from a point to itself is zero. -/
lemma distanceKm_self (lat lng : ℚ) : distanceKm lat lng lat lng = 0 := by
  unfold distanceKm atan2
  norm_num [Real.sin_zero, Real.sqrt_zero, Real.sqrt_one, Real.arctan_zero]

/-- Unfolding `dedupGo` on the empty list. -/
lemma dedupGo_nil (seen : List String) (acc : List Observation) :
    dedupGo [] seen acc = acc := by
  unfold dedupGo
  rfl

/-- Unfolding `dedupGo` when the head's id was already accepted. -/
lemma dedupGo_cons_seen (o : Observation) (rest : List Observation) (seen : List String)
    (acc : List Observation) (h1 : o.id ∈ seen) :
    dedupGo (o :: rest) seen acc = dedupGo rest seen acc := by
  conv_lhs => unfold dedupGo
  rw [if_pos h1]

/-- Unfolding `dedupGo` when the head duplicates an accepted record. -/
lemma dedupGo_cons_dup (o : Observation) (rest : List Observation) (seen : List String)
    (acc : List Observation) (h1 : o.id ∉ seen) (h2 : ∃ e ∈ acc, IsDupObs e o) :
    dedupGo (o :: rest) seen acc = dedupGo rest seen acc := by
  conv_lhs => unfold dedupGo
  rw [if_neg h1, if_pos h2]

/-- Unfolding `dedupGo` when the head is accepted. -/
lemma dedupGo_cons_accept (o : Observation) (rest : List Observation) (seen : List String)
    (acc : List Observation) (h1 : o.id ∉ seen) (h2 : ¬ ∃ e ∈ acc, IsDupObs e o) :
    dedupGo (o :: rest) seen acc = dedupGo rest (o.id :: seen) (acc ++ [o]) := by
  conv_lhs => unfold dedupGo
  rw [if_neg h1, if_neg h2]

/-- `dedupGo` only ever appends a sub-selection of its input to the accumulator. -/
lemma dedupGo_sublist :
    ∀ (xs : List Observation) (seen : List String) (acc : List Observation),
      ∃ t, dedupGo xs seen acc = acc ++ t ∧ t.Sublist xs := by
  intro xs
  induction xs with
  | nil => intro seen acc; exact ⟨[], by simp [dedupGo_nil], List.nil_sublist _⟩
  | cons o rest ih =>
    intro seen acc
    by_cases h1 : o.id ∈ seen
    · obtain ⟨t, ht, hs⟩ := ih seen acc
      exact ⟨t, by rw [dedupGo_cons_seen o rest seen acc h1, ht], hs.cons o⟩
    · by_cases h2 : ∃ e ∈ acc, IsDupObs e o
      · obtain ⟨t, ht, hs⟩ := ih seen acc
        exact ⟨t, by rw [dedupGo_cons_dup o rest seen acc h1 h2, ht], hs.cons o⟩
      · obtain ⟨t, ht, hs⟩ := ih (o.id :: seen) (acc ++ [o])
        refine ⟨o :: t, ?_, hs.cons₂ o⟩
        rw [dedupGo_cons_accept o rest seen acc h1 h2, ht]
        simp

/-- Invariant run of `dedupGo`: the accepted list stays pairwise
non-duplicate and keeps pairwise-distinct ids. -/
lemma dedupGo_pairwise :
    ∀ (xs : List Observation) (seen : List String) (acc : List Observation),
      acc.Pairwise (fun a b => ¬ IsDupObs a b) →
      (∀ a ∈ acc, a.id ∈ seen) →
      (acc.map Observation.id).Nodup →
      (dedupGo xs seen acc).Pairwise (fun a b => ¬ IsDupObs a b) ∧
        ((dedupGo xs seen acc).map Observation.id).Nodup := by
  intro xs
  induction xs with
  | nil => intro seen acc hpw _ hnd; rw [dedupGo_nil]; exact ⟨hpw, hnd⟩
  | cons o rest ih =>
    intro seen acc hpw hsub hnd
    by_cases h1 : o.id ∈ seen
    · rw [dedupGo_cons_seen o rest seen acc h1]
      exact ih seen acc hpw hsub hnd
    · by_cases h2 : ∃ e ∈ acc, IsDupObs e o
      · rw [dedupGo_cons_dup o rest seen acc h1 h2]
        exact ih seen acc hpw hsub hnd
      · rw [dedupGo_cons_accept o rest seen acc h1 h2]
        apply ih (o.id :: seen) (acc ++ [o])
        · rw [List.pairwise_append]
          refine ⟨hpw, by simp, ?_⟩
          intro a ha b hb
          have hb' : b = o := by simpa using hb
          subst hb'
          intro hcontra
          exact h2 ⟨a, ha, hcontra⟩
        · intro a ha
          rcases List.mem_append.1 ha with ha | ha
          · exact List.mem_cons_of_mem _ (hsub a ha)
          · have : a = o := by simpa using ha
            subst this
            exact List.mem_cons_self _ _
        · rw [List.map_append, List.map_singleton]
          rw [List.nodup_append]
          refine ⟨hnd, List.nodup_singleton _, ?_⟩
          intro x hx
          obtain ⟨a, ha, hax⟩ := List.mem_map.1 hx
          intro hmem
          have hxo : x = o.id := by simpa using hmem
          subst hxo
          exact h1 (hax ▸ hsub a ha)

/-- Running `dedupGo` over a list that is already clean — fresh ids, pairwise
distinct ids, pairwise non-duplicate, and not duplicating the accumulator —
appends it unchanged. -/
lemma dedupGo_clean :
    ∀ (ys : List Observation) (seen : List String) (acc : List Observation),
      (∀ y ∈ ys, y.id ∉ seen) →
      (ys.map Observation.id).Nodup →
      ys.Pairwise (fun a b => ¬ IsDupObs a b) →
      (∀ a ∈ acc, ∀ y ∈ ys, ¬ IsDupObs a y) →
      dedupGo ys seen acc = acc ++ ys := by
  intro ys
  induction ys with
  | nil => intro seen acc _ _ _ _; simp [dedupGo_nil]
  | cons y rest ih =>
    intro seen acc hfresh hnd hpw hacc
    have h1 : y.id ∉ seen := hfresh y (by simp)
    have h2 : ¬ ∃ e ∈ acc, IsDupObs e y := by
      rintro ⟨e, he, hdup⟩
      exact hacc e he y (by simp) hdup
    rw [dedupGo_cons_accept y rest seen acc h1 h2]
    rw [ih (y.id :: seen) (acc ++ [y])]
    · simp
    · intro z hz
      rw [List.map_cons, List.nodup_cons] at hnd
      intro hmem
      rcases List.mem_cons.1 hmem with hmem | hmem
      · exact hnd.1 (hmem ▸ List.mem_map_of_mem Observation.id hz)
      · exact hfresh z (List.mem_cons_of_mem _ hz) hmem
    · rw [List.map_cons, List.nodup_cons] at hnd
      exact hnd.2
    · exact (List.pairwise_cons.1 hpw).2
    · intro a ha z hz
      rcases List.mem_append.1 ha with ha | ha
      · exact hacc a ha z (List.mem_cons_of_mem _ hz)
      · have : a = y := by simpa using ha
        subst this
        exact (List.pairwise_cons.1 hpw).1 z hz

/-- C10.  `deduplicateObservations` is idempotent, and its output is an
order-preserving subsequence of its input. -/
theorem dedup_idempotent_and_sublist :
    ∀ xs : List Observation,
      deduplicateObservations (deduplicateObservations xs) = deduplicateObservations xs ∧
        (deduplicateObservations xs).Sublist xs := by
  intro xs
  have hsub : (deduplicateObservations xs).Sublist xs := by
    obtain ⟨t, ht, hs⟩ := dedupGo_sublist xs [] []
    unfold deduplicateObservations
    rw [ht]
    simpa using hs
  have hprops := dedupGo_pairwise xs [] [] (by simp) (by simp) (by simp)
  refine ⟨?_, hsub⟩
  show dedupGo (deduplicateObservations xs) [] [] = deduplicateObservations xs
  rw [dedupGo_clean (deduplicateObservations xs) [] [] (by simp) hprops.2 hprops.1 (by simp)]
  simp

/-- C7 (amended).  The deduplicated output is an order-preserving subsequence
of the input and contains no matching pair at all: whenever the earlier record
of a matching pair is accepted, the later one is dropped.  (The counterexample
theorem shows the unamended claim — that the *first-encountered* record of
every matching pair survives — is false.) -/
theorem dedup_sublist_and_no_matching_pair :
    ∀ xs : List Observation,
      (deduplicateObservations xs).Sublist xs ∧
        (deduplicateObservations xs).Pairwise (fun a b => ¬ IsDupObs a b) := by
  intro xs
  have hprops := dedupGo_pairwise xs [] [] (by simp) (by simp) (by simp)
  refine ⟨?_, hprops.1⟩
  obtain ⟨t, ht, hs⟩ := dedupGo_sublist xs [] []
  unfold deduplicateObservations
  rw [ht]
  simpa using hs

/-- Counterexample to C7 as stated: `obsB` and `obsC` form a matching pair
(same scientific name, distance 0 < 30 m) with `obsB` first-encountered, yet
`obsB` is dropped (as a duplicate of the earlier-accepted `obsA`) and the
*later* `obsC` survives. -/
theorem dedup_first_of_pair_not_kept :
    IsDupObs obsB obsC ∧
      deduplicateObservations [obsA, obsB, obsC] = [obsA, obsC] := by
  have hdupAB : IsDupObs obsA obsB := by
    constructor
    · left
      rfl
    · show distanceKm 3 4 3 4 < 0.03
      rw [distanceKm_self]
      norm_num
  have hdupBC : IsDupObs obsB obsC := by
    constructor
    · right
      rfl
    · show distanceKm 3 4 3 4 < 0.03
      rw [distanceKm_self]
      norm_num
  refine ⟨hdupBC, ?_⟩
  unfold deduplicateObservations
  rw [dedupGo_cons_accept obsA [obsB, obsC] [] [] (by simp) (by simp)]
  simp only [List.nil_append]
  rw [dedupGo_cons_dup obsB [obsC] [obsA.id] [obsA] (by decide) ⟨obsA, by simp, hdupAB⟩]
  rw [dedupGo_cons_accept obsC [] [obsA.id] [obsA] (by decide) ?hnd]
  case hnd =>
    rintro ⟨e, he, hdup⟩
    have he' : e = obsA := by simpa using he
    subst he'
    exact absurd hdup.1 (by decide)
  rw [dedupGo_nil]
  rfl

/-- C3 fails on the code (the intent of the spec — species-level identity —
contradicts the implementation): `obsP` and `obsQ` have different scientific
names and no common name at all, yet JS `===` sees the two `undefined`
common-name fields as equal, so at identical coordinates the later record is
dropped instead of both being retained. -/
theorem dedup_drops_distinct_species_missing_names :
    obsP.commonName = none ∧ obsQ.commonName = none ∧
      obsP.scientificName ≠ obsQ.scientificName ∧
      obsP.lat = obsQ.lat ∧ obsP.lng = obsQ.lng ∧
      deduplicateObservations [obsP, obsQ] = [obsP] := by
  refine ⟨rfl, rfl, by decide, rfl, rfl, ?_⟩
  have hdupPQ : IsDupObs obsP obsQ := by
    constructor
    · left
      rfl
    · show distanceKm 1 2 1 2 < 0.03
      rw [distanceKm_self]
      norm_num
  unfold deduplicateObservations
  rw [dedupGo_cons_accept obsP [obsQ] [] [] (by simp) (by simp)]
  simp only [List.nil_append]
  rw [dedupGo_cons_dup obsQ [] [obsP.id] [obsP] (by decide) ⟨obsP, by simp, hdupPQ⟩]
  rw [dedupGo_nil]

/-- When one of the two id fields is truthy, the eBird id fallback chain
resolves to a fixed native id independent of the clock. -/
lemma jsOrStr_truthy_resolves (a b : Option String) (h : jsTruthyStr a ∨ jsTruthyStr b) :
    ∃ s, jsOrStr a b = some s ∧ s ≠ "" ∧ ∀ n, jsStrOrNat (jsOrStr a b) n = s := by
  rcases a with _ | s
  · have hb : jsTruthyStr b := by
      rcases h with h | h
      · exact absurd h (by simp [jsTruthyStr])
      · exact h
    rcases b with _ | t
    · exact absurd hb (by simp [jsTruthyStr])
    · have ht : ¬ t = "" := by simpa [jsTruthyStr] using hb
      refine ⟨t, ?_, ht, ?_⟩
      · simp [jsOrStr, jsTruthyStr]
      · intro n
        simp [jsOrStr, jsTruthyStr, jsStrOrNat, ht]
  · by_cases hs : s = ""
    · subst hs
      have hb : jsTruthyStr b := by
        rcases h with h | h
        · exact absurd h (by simp [jsTruthyStr])
        · exact h
      rcases b with _ | t
      · exact absurd hb (by simp [jsTruthyStr])
      · have ht : ¬ t = "" := by simpa [jsTruthyStr] using hb
        refine ⟨t, ?_, ht, ?_⟩
        · simp [jsOrStr, jsTruthyStr]
        · intro n
          simp [jsOrStr, jsTruthyStr, jsStrOrNat, ht]
    · refine ⟨s, ?_, hs, ?_⟩
      · simp [jsOrStr, jsTruthyStr, hs]
      · intro n
        simp [jsOrStr, jsTruthyStr, jsStrOrNat, hs]

/-- C6 (amended).  `normalizeInat` always assigns the stable id
`"inat-" ++ nativeId`.  `normalizeEbird` assigns `"ebird-" ++ nativeId` and is
stable across fetches at different times *provided* the raw record carries a
truthy `obsId` or `subId`; the counterexample theorem shows that a record with
neither falls back to `Date.now()` and gets a different id on each fetch. -/
theorem normalize_id_stable :
    (∀ (e : EbirdRaw) (now now' : ℕ), (jsTruthyStr e.obsId ∨ jsTruthyStr e.subId) →
      (normalizeEbird now e).id = (normalizeEbird now' e).id ∧
        ∃ native, jsOrStr e.obsId e.subId = some native ∧
          (normalizeEbird now e).id = "ebird-" ++ native) ∧
    (∀ (i : InatRaw), (normalizeInat i).id = "inat-" ++ toString i.id) := by
  constructor
  · intro e now now' h
    obtain ⟨s, hjs, _, hall⟩ := jsOrStr_truthy_resolves e.obsId e.subId h
    constructor
    · show "ebird-" ++ jsStrOrNat (jsOrStr e.obsId e.subId) now =
        "ebird-" ++ jsStrOrNat (jsOrStr e.obsId e.subId) now'
      rw [hall now, hall now']
    · refine ⟨s, hjs, ?_⟩
      show "ebird-" ++ jsStrOrNat (jsOrStr e.obsId e.subId) now = "ebird-" ++ s
      rw [hall now]
  · intro i
    rfl

/-- Witness for C6's amended theorem at a concrete raw record carrying an
`obsId`, normalized at two different times, plus a concrete iNat record. -/
theorem normalize_id_stable_witness :
    ((normalizeEbird 1 { obsId := some "OBS77" }).id =
        (normalizeEbird 2 { obsId := some "OBS77" }).id ∧
      ∃ native, jsOrStr (EbirdRaw.obsId { obsId := some "OBS77" })
          (EbirdRaw.subId { obsId := some "OBS77" }) = some native ∧
        (normalizeEbird 1 { obsId := some "OBS77" }).id = "ebird-" ++ native) ∧
    (normalizeInat { id := 42 }).id = "inat-" ++ toString (42 : Int) := by
  constructor
  · exact normalize_id_stable.1 { obsId := some "OBS77" } 1 2 (Or.inl (by decide))
  · exact normalize_id_stable.2 { id := 42 }

/-- Counterexample to C6 as stated: a raw eBird record with neither `obsId`
nor `subId` is normalized with a `Date.now()`-based id, so the same record
fetched at two different times gets two different ids — the id is not stable,
and is not of the form provider-tag + dash + provider-native id. -/
theorem normalizeEbird_id_unstable_without_native_id :
    (normalizeEbird 1 ({} : EbirdRaw)).id = "ebird-1" ∧
      (normalizeEbird 2 ({} : EbirdRaw)).id = "ebird-2" ∧
      (normalizeEbird 1 ({} : EbirdRaw)).id ≠ (normalizeEbird 2 ({} : EbirdRaw)).id := by
  refine ⟨?_, ?_, ?_⟩ <;> decide

/-- The translated radius never exceeds the eBird ceiling. -/
lemma centerRadius_capped (v : Viewport) :
    (viewportToCenterRadius v).radiusKm ≤ MAX_RADIUS_KM := by
  simp [viewportToCenterRadius, MAX_RADIUS_KM]

/-- With the API key present and a radius within the ceiling,
`fetchRecentEbird` issues the single direct fetch. -/
lemma fetchRecentEbird_capped (http : HttpOutcome EbirdBody) (now : ℕ) (center : ℚ × ℚ)
    (r : ℚ) (hr : r ≤ MAX_RADIUS_KM) :
    fetchRecentEbird true http now center r = some (fetchEbirdSingle http now) := by
  unfold fetchRecentEbird
  rw [if_neg (by simp), if_pos hr]

/-- A transport failure makes the iNaturalist client return the empty list. -/
lemma fetchInat_failure (http : HttpOutcome InatBody) (h : IsTransportFailure http) :
    fetchInat http = [] := by
  rcases h with h | ⟨b, h⟩ | h <;> subst h <;> simp [fetchInat]

/-- A transport failure makes a single eBird fetch return the empty list. -/
lemma fetchEbirdSingle_failure (http : HttpOutcome EbirdBody) (now : ℕ)
    (h : IsTransportFailure http) : fetchEbirdSingle http now = [] := by
  rcases h with h | ⟨b, h⟩ | h <;> subst h <;> simp [fetchEbirdSingle]

/-- Full evaluation of the handler on a valid filterless GET request against a
cold cache: both providers are invoked, their results are concatenated,
deduplicated, cached and returned with status 200. -/
lemma handler_happy_path (q : Query) (env : ProviderEnv) (lat lng dlat dlng : ℚ)
    (hlat : parseQueryFloat q.lat = some lat) (hlng : parseQueryFloat q.lng = some lng)
    (hdlat : parseQueryFloat q.latDelta = some dlat)
    (hdlng : parseQueryFloat q.lngDelta = some dlng)
    (hposa : 0 < dlat) (hposb : 0 < dlng)
    (hrec : q.recency = none) (hph : q.hasPhoto = none)
    (htx : parseTaxaParam q.taxa = []) (hpv : parseProviderParam q.provider = [])
    (hkey : env.ebirdApiKey = true) :
    handler "GET" q env [] =
      ⟨200,
        deduplicateObservations
          (fetchEbirdSingle env.ebirdHttp env.now ++ fetchInat env.inatHttp),
        true, true,
        setCached (getCacheKey lat lng dlat dlng (some {}))
          (deduplicateObservations
            (fetchEbirdSingle env.ebirdHttp env.now ++ fetchInat env.inatHttp))
          env.now []⟩ := by
  have ha : ¬ dlat ≤ 0 := not_le.2 hposa
  have hb : ¬ dlng ≤ 0 := not_le.2 hposb
  simp only [handler, hlat, hlng, hdlat, hdlng, hrec, hph, htx, hpv, hkey,
    parseRecencyRaw, parseHasPhoto, Option.bind, Option.getD, getCached,
    List.find?, ha, hb, centerRadius_capped, fetchRecentEbird_capped,
    List.isEmpty_nil, Bool.true_or, List.length_nil]
  simp

/-- C4 (amended).  A missing or non-numeric required parameter, or a
non-positive delta, always yields status 400 with neither provider client
invoked and the cache untouched.  (Latitude/longitude range is *not*
validated — see the counterexample theorem.) -/
theorem handler_400_no_provider_calls :
    ∀ (q : Query) (env : ProviderEnv) (cache : Cache),
      (parseQueryFloat q.lat = none ∨ parseQueryFloat q.lng = none ∨
        parseQueryFloat q.latDelta = none ∨ parseQueryFloat q.lngDelta = none ∨
        (parseQueryFloat q.latDelta).getD 0 ≤ 0 ∨ (parseQueryFloat q.lngDelta).getD 0 ≤ 0) →
      handler "GET" q env cache = ⟨400, [], false, false, cache⟩ := by
  intro q env cache h
  simp only [handler]
  rw [if_neg (by simp : ¬ ("GET" : String) ≠ "GET")]
  rw [if_pos h]

/-- Witness for C4's amended theorem: a request missing `lat` is rejected
with 400 and no provider call. -/
theorem handler_400_no_provider_calls_witness :
    handler "GET" qMissingLat envOk [] = ⟨400, [], false, false, []⟩ :=
  handler_400_no_provider_calls qMissingLat envOk [] (Or.inl rfl)

/-- Counterexample to C4 as stated: latitude 200 is far outside [-90, 90],
yet the handler accepts the request (status 200) and calls both provider
clients — the code never validates the lat/lng ranges. -/
theorem handler_no_lat_range_check :
    (handler "GET" qLat200 envOk []).status = 200 ∧
      (handler "GET" qLat200 envOk []).calledEbird = true ∧
      (handler "GET" qLat200 envOk []).calledInat = true := by
  have h := handler_happy_path qLat200 envOk 200 0 1 1
    (by simp [qLat200, parseQueryFloat, jsParseFloat, takeDigits, digitVal, natOfDigits])
    (by simp [qLat200, parseQueryFloat, jsParseFloat, takeDigits, digitVal, natOfDigits])
    (by simp [qLat200, parseQueryFloat, jsParseFloat, takeDigits, digitVal, natOfDigits])
    (by simp [qLat200, parseQueryFloat, jsParseFloat, takeDigits, digitVal, natOfDigits])
    (by norm_num) (by norm_num) rfl rfl rfl rfl rfl
  rw [h]
  exact ⟨rfl, rfl, rfl⟩

/-- C5.  A transport failure (network/timeout error, non-2xx, malformed body)
in one provider is converted into an empty list by that provider's client, and
on a valid filterless request against a cold cache the aggregate response is a
200 carrying exactly the other provider's normalized, deduplicated
observations — the upstream error never reaches the caller. -/
theorem provider_failure_isolated :
    (∀ http : HttpOutcome InatBody, IsTransportFailure http → fetchInat http = []) ∧
    (∀ (http : HttpOutcome EbirdBody) (now : ℕ), IsTransportFailure http →
      fetchEbirdSingle http now = []) ∧
    (∀ (q : Query) (env : ProviderEnv) (xs : List EbirdRaw) (lat lng dlat dlng : ℚ),
      parseQueryFloat q.lat = some lat → parseQueryFloat q.lng = some lng →
      parseQueryFloat q.latDelta = some dlat → parseQueryFloat q.lngDelta = some dlng →
      0 < dlat → 0 < dlng →
      q.recency = none → q.hasPhoto = none → q.taxa = none → q.provider = none →
      env.ebirdApiKey = true →
      IsTransportFailure env.inatHttp →
      env.ebirdHttp = .response true (some (.arr xs)) →
      (handler "GET" q env []).status = 200 ∧
        (handler "GET" q env []).observations =
          deduplicateObservations (xs.map (normalizeEbird env.now))) ∧
    (∀ (q : Query) (env : ProviderEnv) (rs : List InatRaw) (lat lng dlat dlng : ℚ),
      parseQueryFloat q.lat = some lat → parseQueryFloat q.lng = some lng →
      parseQueryFloat q.latDelta = some dlat → parseQueryFloat q.lngDelta = some dlng →
      0 < dlat → 0 < dlng →
      q.recency = none → q.hasPhoto = none → q.taxa = none → q.provider = none →
      env.ebirdApiKey = true →
      IsTransportFailure env.ebirdHttp →
      env.inatHttp = .response true (some (.results rs)) →
      (handler "GET" q env []).status = 200 ∧
        (handler "GET" q env []).observations =
          deduplicateObservations
            ((rs.filter (fun o => jsTruthyStr o.location)).map normalizeInat)) := by
  refine ⟨fetchInat_failure, fetchEbirdSingle_failure, ?_, ?_⟩
  · intro q env xs lat lng dlat dlng hlat hlng hdlat hdlng hposa hposb hrec hph htx hpv
      hkey hfail hbody
    have h := handler_happy_path q env lat lng dlat dlng hlat hlng hdlat hdlng hposa hposb
      hrec hph (by rw [htx]; rfl) (by rw [hpv]; rfl) hkey
    rw [h]
    refine ⟨rfl, ?_⟩
    show deduplicateObservations
        (fetchEbirdSingle env.ebirdHttp env.now ++ fetchInat env.inatHttp) = _
    rw [fetchInat_failure env.inatHttp hfail, hbody]
    simp [fetchEbirdSingle]
  · intro q env rs lat lng dlat dlng hlat hlng hdlat hdlng hposa hposb hrec hph htx hpv
      hkey hfail hbody
    have h := handler_happy_path q env lat lng dlat dlng hlat hlng hdlat hdlng hposa hposb
      hrec hph (by rw [htx]; rfl) (by rw [hpv]; rfl) hkey
    rw [h]
    refine ⟨rfl, ?_⟩
    show deduplicateObservations
        (fetchEbirdSingle env.ebirdHttp env.now ++ fetchInat env.inatHttp) = _
    rw [fetchEbirdSingle_failure env.ebirdHttp env.now hfail, hbody]
    simp [fetchInat]

/-- Witness for C5 at concrete inputs: a network error on each side in turn,
with the other provider answering 200 with an empty record array. -/
theorem provider_failure_isolated_witness :
    fetchInat .netError = [] ∧
    fetchEbirdSingle .netError 7 = [] ∧
    ((handler "GET" qValid envInatFail []).status = 200 ∧
      (handler "GET" qValid envInatFail []).observations =
        deduplicateObservations (([] : List EbirdRaw).map (normalizeEbird envInatFail.now))) ∧
    ((handler "GET" qValid envEbirdFail []).status = 200 ∧
      (handler "GET" qValid envEbirdFail []).observations =
        deduplicateObservations
          ((([] : List InatRaw).filter (fun o => jsTruthyStr o.location)).map normalizeInat)) := by
  refine ⟨provider_failure_isolated.1 .netError (Or.inl rfl),
    provider_failure_isolated.2.1 .netError 7 (Or.inl rfl), ?_, ?_⟩
  · exact provider_failure_isolated.2.2.1 qValid envInatFail [] 1 2 1 1
      (by simp [qValid, parseQueryFloat, jsParseFloat, takeDigits, digitVal, natOfDigits])
      (by simp [qValid, parseQueryFloat, jsParseFloat, takeDigits, digitVal, natOfDigits])
      (by simp [qValid, parseQueryFloat, jsParseFloat, takeDigits, digitVal, natOfDigits])
      (by simp [qValid, parseQueryFloat, jsParseFloat, takeDigits, digitVal, natOfDigits])
      (by norm_num) (by norm_num) rfl rfl rfl rfl rfl (Or.inl rfl) rfl
  · exact provider_failure_isolated.2.2.2 qValid envEbirdFail [] 1 2 1 1
      (by simp [qValid, parseQueryFloat, jsParseFloat, takeDigits, digitVal, natOfDigits])
      (by simp [qValid, parseQueryFloat, jsParseFloat, takeDigits, digitVal, natOfDigits])
      (by simp [qValid, parseQueryFloat, jsParseFloat, takeDigits, digitVal, natOfDigits])
      (by simp [qValid, parseQueryFloat, jsParseFloat, takeDigits, digitVal, natOfDigits])
      (by norm_num) (by norm_num) rfl rfl rfl rfl rfl (Or.inl rfl) rfl

/-- The handler's behaviour depends on the query only through the parsed
parameter values. -/
lemma handler_congr (method : String) (q q' : Query) (env : ProviderEnv) (cache : Cache)
    (h1 : parseQueryFloat q.lat = parseQueryFloat q'.lat)
    (h2 : parseQueryFloat q.lng = parseQueryFloat q'.lng)
    (h3 : parseQueryFloat q.latDelta = parseQueryFloat q'.latDelta)
    (h4 : parseQueryFloat q.lngDelta = parseQueryFloat q'.lngDelta)
    (h5 : parseRecencyRaw q.recency = parseRecencyRaw q'.recency)
    (h6 : parseHasPhoto q.hasPhoto = parseHasPhoto q'.hasPhoto)
    (h7 : parseTaxaParam q.taxa = parseTaxaParam q'.taxa)
    (h8 : parseProviderParam q.provider = parseProviderParam q'.provider) :
    handler method q env cache = handler method q' env cache := by
  simp only [handler, h1, h2, h3, h4, h5, h6, h7, h8]

/-- An all-unrecognized taxa parameter parses to the empty (unrestricted) list. -/
lemma parseTaxaParam_junk (s : String) (hs : s ≠ "")
    (hjunk : ∀ t ∈ jsSplit s ',', taxaOfName t = none) :
    parseTaxaParam (some s) = [] := by
  show (if s = "" then [] else (jsSplit s ',').filterMap taxaOfName) = []
  rw [if_neg hs]
  exact List.filterMap_eq_nil_iff.2 hjunk

/-- An all-unrecognized provider parameter parses to the empty list. -/
lemma parseProviderParam_junk (s : String) (hs : s ≠ "")
    (hjunk : ∀ t ∈ jsSplit s ',', providerOfName t = none) :
    parseProviderParam (some s) = [] := by
  show (if s = "" then [] else (jsSplit s ',').filterMap providerOfName) = []
  rw [if_neg hs]
  exact List.filterMap_eq_nil_iff.2 hjunk

/-- C9.  A taxa (or provider) parameter containing only unrecognized values is
silently discarded: the request is *not* rejected with 400 — it behaves
exactly like the same request without that parameter (the empty filter set is
unrestricted), and on a valid filterless request the response is a 200 for
which both provider clients were invoked. -/
theorem invalid_filter_values_ignored :
    (∀ (method : String) (q : Query) (s : String) (env : ProviderEnv) (cache : Cache),
      q.taxa = some s → s ≠ "" → (∀ t ∈ jsSplit s ',', taxaOfName t = none) →
      handler method q env cache = handler method { q with taxa := none } env cache) ∧
    (∀ (method : String) (q : Query) (s : String) (env : ProviderEnv) (cache : Cache),
      q.provider = some s → s ≠ "" → (∀ t ∈ jsSplit s ',', providerOfName t = none) →
      handler method q env cache = handler method { q with provider := none } env cache) ∧
    (∀ (q : Query) (env : ProviderEnv) (lat lng dlat dlng : ℚ),
      parseQueryFloat q.lat = some lat → parseQueryFloat q.lng = some lng →
      parseQueryFloat q.latDelta = some dlat → parseQueryFloat q.lngDelta = some dlng →
      0 < dlat → 0 < dlng →
      q.recency = none → q.hasPhoto = none →
      parseTaxaParam q.taxa = [] → parseProviderParam q.provider = [] →
      env.ebirdApiKey = true →
      (handler "GET" q env []).status = 200 ∧
        (handler "GET" q env []).calledEbird = true ∧
        (handler "GET" q env []).calledInat = true) := by
  refine ⟨?_, ?_, ?_⟩
  · intro method q s env cache hq hs hjunk
    apply handler_congr <;> try rfl
    rw [hq, parseTaxaParam_junk s hs hjunk]
    rfl
  · intro method q s env cache hq hs hjunk
    apply handler_congr <;> try rfl
    rw [hq, parseProviderParam_junk s hs hjunk]
    rfl
  · intro q env lat lng dlat dlng hlat hlng hdlat hdlng hposa hposb hrec hph htx hpv hkey
    have h := handler_happy_path q env lat lng dlat dlng hlat hlng hdlat hdlng hposa hposb
      hrec hph htx hpv hkey
    rw [h]
    exact ⟨rfl, rfl, rfl⟩

/-- Witness for C9: the concrete junk parameters `taxa=Dinosaur,Dragon` and
`provider=gbif` are ignored, and the junk-taxa request is answered 200 with
both providers invoked. -/
theorem invalid_filter_values_ignored_witness :
    handler "GET" qJunkTaxa envOk [] =
        handler "GET" { qJunkTaxa with taxa := none } envOk [] ∧
      handler "GET" qJunkProvider envOk [] =
        handler "GET" { qJunkProvider with provider := none } envOk [] ∧
      (handler "GET" qJunkTaxa envOk []).status = 200 ∧
        (handler "GET" qJunkTaxa envOk []).calledEbird = true ∧
        (handler "GET" qJunkTaxa envOk []).calledInat = true := by
  refine ⟨?_, ?_, ?_⟩
  · exact invalid_filter_values_ignored.1 "GET" qJunkTaxa "Dinosaur,Dragon" envOk []
      rfl (by decide) (by decide)
  · exact invalid_filter_values_ignored.2.1 "GET" qJunkProvider "gbif" envOk []
      rfl (by decide) (by decide)
  · exact invalid_filter_values_ignored.2.2 qJunkTaxa envOk 1 2 1 1
      (by simp [qJunkTaxa, parseQueryFloat, jsParseFloat, takeDigits, digitVal, natOfDigits])
      (by simp [qJunkTaxa, parseQueryFloat, jsParseFloat, takeDigits, digitVal, natOfDigits])
      (by simp [qJunkTaxa, parseQueryFloat, jsParseFloat, takeDigits, digitVal, natOfDigits])
      (by simp [qJunkTaxa, parseQueryFloat, jsParseFloat, takeDigits, digitVal, natOfDigits])
      (by norm_num) (by norm_num) rfl rfl
      (parseTaxaParam_junk "Dinosaur,Dragon" (by decide) (by decide)) rfl rfl

/-- String append is left-cancellative. -/
lemma str_append_cancel (a b c : String) (h : a ++ b = a ++ c) : b = c := by
  have hd := congrArg String.data h
  rw [String.data_append a b, String.data_append a c] at hd
  exact String.ext (List.append_cancel_left hd)

/-- Splitting at the first separator of a separator-free-prefixed list is
unambiguous. -/
lemma sep_split (sep : Char) :
    ∀ (a b x y : List Char), sep ∉ a → sep ∉ b →
      a ++ sep :: x = b ++ sep :: y → a = b ∧ x = y := by
  intro a
  induction a with
  | nil =>
    intro b x y _ hb h
    cases b with
    | nil => simpa using h
    | cons d bs =>
      simp only [List.nil_append, List.cons_append, List.cons.injEq] at h
      exact absurd (h.1 ▸ List.mem_cons_self d bs) (h.1 ▸ hb)
  | cons c as ih =>
    intro b x y ha hb h
    cases b with
    | nil =>
      simp only [List.cons_append, List.nil_append, List.cons.injEq] at h
      exact absurd (h.1 ▸ List.mem_cons_self c as) (h.1 ▸ ha)
    | cons d bs =>
      simp only [List.cons_append, List.cons.injEq] at h
      obtain ⟨hcd, hrest⟩ := h
      obtain ⟨h1, h2⟩ := ih bs x y (fun hm => ha (List.mem_cons_of_mem c hm))
        (fun hm => hb (hcd ▸ List.mem_cons_of_mem d hm)) hrest
      exact ⟨by rw [hcd, h1], h2⟩

/-- A `jsJoin` of a nonempty list of nonempty strings is nonempty. -/
lemma jsJoin_ne_nil (sep : String) (y : String) (ys : List String)
    (hy : y.data ≠ []) : (jsJoin sep (y :: ys)).data ≠ [] := by
  cases ys with
  | nil => simpa [jsJoin] using hy
  | cons z zs =>
    show ((y ++ sep) ++ jsJoin sep (z :: zs)).data ≠ []
    rw [String.data_append, String.data_append]
    simp only [List.append_assoc, ne_eq, List.append_eq_nil]
    intro hcontra
    exact hy hcontra.1

/-- Every character of a `jsJoin` comes from the separator or an element. -/
lemma jsJoin_chars (sep : String) :
    ∀ (l : List String) (c : Char), c ∈ (jsJoin sep l).data →
      c ∈ sep.data ∨ ∃ s ∈ l, c ∈ s.data := by
  intro l
  induction l with
  | nil => intro c hc; simp [jsJoin] at hc
  | cons y ys ih =>
    intro c hc
    cases ys with
    | nil =>
      right
      exact ⟨y, by simp, by simpa [jsJoin] using hc⟩
    | cons z zs =>
      have : c ∈ (y ++ sep ++ jsJoin sep (z :: zs)).data := hc
      rw [String.data_append, String.data_append] at this
      rcases List.mem_append.1 this with hm | hm
      · rcases List.mem_append.1 hm with hm | hm
        · exact Or.inr ⟨y, by simp, hm⟩
        · exact Or.inl hm
      · rcases ih c hm with hm' | ⟨s, hs, hcs⟩
        · exact Or.inl hm'
        · exact Or.inr ⟨s, List.mem_cons_of_mem y hs, hcs⟩

/-- `jsJoin` with a one-character separator is injective on lists of nonempty,
separator-free strings. -/
lemma jsJoin_inj (sep : String) (c : Char) (hsep : sep.data = [c]) :
    ∀ (l1 l2 : List String),
      (∀ s ∈ l1, s.data ≠ [] ∧ c ∉ s.data) →
      (∀ s ∈ l2, s.data ≠ [] ∧ c ∉ s.data) →
      jsJoin sep l1 = jsJoin sep l2 → l1 = l2 := by
  intro l1
  induction l1 with
  | nil =>
    intro l2 _ h2 h
    cases l2 with
    | nil => rfl
    | cons y ys =>
      exact absurd (congrArg String.data h).symm (jsJoin_ne_nil sep y ys (h2 y (by simp)).1)
  | cons x xs ih =>
    intro l2 h1 h2 h
    cases l2 with
    | nil =>
      exact absurd (congrArg String.data h) (jsJoin_ne_nil sep x xs (h1 x (by simp)).1)
    | cons y ys =>
      cases xs with
      | nil =>
        cases ys with
        | nil => simpa [jsJoin] using h
        | cons z zs =>
          exfalso
          have hd : x.data = y.data ++ c :: (jsJoin sep (z :: zs)).data := by
            have := congrArg String.data h
            simpa [jsJoin, String.data_append, hsep] using this
          have : c ∈ x.data := by
            rw [hd]
            exact List.mem_append.2 (Or.inr (List.mem_cons_self _ _))
          exact (h1 x (by simp)).2 this
      | cons a as =>
        cases ys with
        | nil =>
          exfalso
          have hd : y.data = x.data ++ c :: (jsJoin sep (a :: as)).data := by
            have := (congrArg String.data h).symm
            simpa [jsJoin, String.data_append, hsep] using this
          have : c ∈ y.data := by
            rw [hd]
            exact List.mem_append.2 (Or.inr (List.mem_cons_self _ _))
          exact (h2 y (by simp)).2 this
        | cons b bs =>
          have hd : x.data ++ c :: (jsJoin sep (a :: as)).data =
              y.data ++ c :: (jsJoin sep (b :: bs)).data := by
            have := congrArg String.data h
            simpa [jsJoin, String.data_append, hsep, List.append_assoc] using this
          obtain ⟨hxy, hrest⟩ := sep_split c x.data y.data _ _
            (h1 x (by simp)).2 (h2 y (by simp)).2 hd
          have hxys : x = y := String.ext hxy
          have hjoin : jsJoin sep (a :: as) = jsJoin sep (b :: bs) := String.ext hrest
          have := ih (b :: bs) (fun s hs => h1 s (List.mem_cons_of_mem x hs))
            (fun s hs => h2 s (List.mem_cons_of_mem y hs)) hjoin
          rw [hxys, this]

/-- Taxa bucket names are distinct. -/
lemma taxaName_inj : Function.Injective taxaName := by
  intro a b h
  cases a <;> cases b <;> first | rfl | exact absurd h (by decide)

/-- Provider names are distinct. -/
lemma providerName_inj : Function.Injective providerName := by
  intro a b h
  cases a <;> cases b <;> first | rfl | exact absurd h (by decide)

/-- Recency names are distinct. -/
lemma recencyName_inj : Function.Injective recencyName := by
  intro a b h
  cases a <;> cases b <;> first | rfl | exact absurd h (by decide)

/-- Every taxa bucket name is nonempty and comma- and pipe-free. -/
lemma taxaName_wf (t : TaxaBucket) :
    (taxaName t).data ≠ [] ∧ ',' ∉ (taxaName t).data ∧ '|' ∉ (taxaName t).data := by
  cases t <;> refine ⟨by decide, by decide, by decide⟩

/-- Every provider name is nonempty and comma- and pipe-free. -/
lemma providerName_wf (p : Provider) :
    (providerName p).data ≠ [] ∧ ',' ∉ (providerName p).data ∧ '|' ∉ (providerName p).data := by
  cases p <;> refine ⟨by decide, by decide, by decide⟩

/-- Every recency name is pipe-free. -/
lemma recencyName_wf (r : Recency) : '|' ∉ (recencyName r).data := by
  cases r <;> decide

/-- The filter-parts list decomposes into its four optional segments. -/
lemma filterPartsOf_eq (f : FilterParams) :
    filterPartsOf f = optPart (recPartOf f) ++ optPart (photoPartOf f) ++
      optPart (taxaPartOf f) ++ optPart (providerPartOf f) := by
  rcases hr : f.recency with _ | r <;> rcases hp : f.hasPhoto with _ | b <;>
    by_cases ht : 0 < f.taxa.length <;> by_cases hv : 0 < f.provider.length <;>
    simp [filterPartsOf, recPartOf, photoPartOf, taxaPartOf, providerPartOf, optPart,
      hr, hp, ht, hv]

/-- First character of a literal-prefixed string. -/
lemma lit_head (lit s : String) (c : Char) (cs : List Char) (hl : lit.data = c :: cs) :
    (lit ++ s).data.head? = some c := by
  rw [String.data_append, hl]
  rfl

/-- Heads of the four part shapes. -/
lemma head_recency_part (s : String) : ("recency:" ++ s).data.head? = some 'r' :=
  lit_head "recency:" s 'r' "ecency:".data rfl

/-- Heads of the four part shapes. -/
lemma head_photo_part (s : String) : ("hasPhoto:" ++ s).data.head? = some 'h' :=
  lit_head "hasPhoto:" s 'h' "asPhoto:".data rfl

/-- Heads of the four part shapes. -/
lemma head_taxa_part (s : String) : ("taxa:" ++ s).data.head? = some 't' :=
  lit_head "taxa:" s 't' "axa:".data rfl

/-- Heads of the four part shapes. -/
lemma head_provider_part (s : String) : ("provider:" ++ s).data.head? = some 'p' :=
  lit_head "provider:" s 'p' "rovider:".data rfl

/-- Each of the four leading characters picks out exactly its own part. -/
lemma pickPart_spec (f : FilterParams) :
    pickPart 'r' (filterPartsOf f) = recPartOf f ∧
      pickPart 'h' (filterPartsOf f) = photoPartOf f ∧
      pickPart 't' (filterPartsOf f) = taxaPartOf f ∧
      pickPart 'p' (filterPartsOf f) = providerPartOf f := by
  rcases hr : f.recency with _ | r <;> rcases hp : f.hasPhoto with _ | b <;>
    by_cases ht : 0 < f.taxa.length <;> by_cases hv : 0 < f.provider.length <;>
    refine ⟨?_, ?_, ?_, ?_⟩ <;>
    simp [pickPart, filterPartsOf, recPartOf, photoPartOf, taxaPartOf, providerPartOf,
      hr, hp, ht, hv, List.find?, head_recency_part, head_photo_part, head_taxa_part,
      head_provider_part]

/-- Equal recency parts force equal recency filters. -/
lemma recPartOf_inj (f1 f2 : FilterParams) (h : recPartOf f1 = recPartOf f2) :
    f1.recency = f2.recency := by
  apply Option.map_injective _ h
  intro a b hab
  exact recencyName_inj (str_append_cancel "recency:" _ _ hab)

/-- Equal hasPhoto parts force equal photo tri-states. -/
lemma photoPartOf_inj (f1 f2 : FilterParams) (h : photoPartOf f1 = photoPartOf f2) :
    f1.hasPhoto = f2.hasPhoto := by
  apply Option.map_injective _ h
  intro a b hab
  have := str_append_cancel "hasPhoto:" _ _ hab
  cases a <;> cases b <;> first | rfl | exact absurd this (by decide)

/-- Sorted name lists of a taxa part are well-formed join elements. -/
lemma sorted_taxaNames_wf (l : List TaxaBucket) :
    ∀ s ∈ List.insertionSort (fun a b : String => a ≤ b) (l.map taxaName),
      s.data ≠ [] ∧ ',' ∉ s.data := by
  intro s hs
  rw [(List.perm_insertionSort _ _).mem_iff] at hs
  obtain ⟨t, _, rfl⟩ := List.mem_map.1 hs
  exact ⟨(taxaName_wf t).1, (taxaName_wf t).2.1⟩

/-- Sorted name lists of a provider part are well-formed join elements. -/
lemma sorted_providerNames_wf (l : List Provider) :
    ∀ s ∈ List.insertionSort (fun a b : String => a ≤ b) (l.map providerName),
      s.data ≠ [] ∧ ',' ∉ s.data := by
  intro s hs
  rw [(List.perm_insertionSort _ _).mem_iff] at hs
  obtain ⟨p, _, rfl⟩ := List.mem_map.1 hs
  exact ⟨(providerName_wf p).1, (providerName_wf p).2.1⟩

/-- A permutation of mapped lists under an injective map lifts back. -/
lemma perm_of_map_perm {α β : Type} (g : α → β) (hg : Function.Injective g)
    (l1 l2 : List α) (h : (l1.map g).Perm (l2.map g)) : l1.Perm l2 := by
  rw [← Multiset.coe_eq_coe] at h ⊢
  rw [← Multiset.map_coe, ← Multiset.map_coe] at h
  exact Multiset.map_injective hg h

/-- Equal taxa parts force the taxa lists to contain the same elements. -/
lemma taxaPartOf_inj (f1 f2 : FilterParams) (h : taxaPartOf f1 = taxaPartOf f2) :
    f1.taxa.Perm f2.taxa := by
  unfold taxaPartOf at h
  by_cases h1 : 0 < f1.taxa.length <;> by_cases h2 : 0 < f2.taxa.length
  · rw [if_pos h1, if_pos h2] at h
    have hj := str_append_cancel "taxa:" _ _ (Option.some.inj h)
    have hsort := jsJoin_inj "," ',' rfl _ _
      (sorted_taxaNames_wf f1.taxa) (sorted_taxaNames_wf f2.taxa) hj
    have hperm : (f1.taxa.map taxaName).Perm (f2.taxa.map taxaName) :=
      (List.perm_insertionSort _ (f1.taxa.map taxaName)).symm.trans
        (hsort ▸ List.perm_insertionSort _ (f2.taxa.map taxaName))
    exact perm_of_map_perm taxaName taxaName_inj _ _ hperm
  · rw [if_pos h1, if_neg h2] at h
    exact absurd h (by simp)
  · rw [if_neg h1, if_pos h2] at h
    exact absurd h (by simp)
  · have e1 : f1.taxa = [] := List.eq_nil_of_length_eq_zero (by omega)
    have e2 : f2.taxa = [] := List.eq_nil_of_length_eq_zero (by omega)
    rw [e1, e2]

/-- Equal provider parts force the provider lists to contain the same elements. -/
lemma providerPartOf_inj (f1 f2 : FilterParams) (h : providerPartOf f1 = providerPartOf f2) :
    f1.provider.Perm f2.provider := by
  unfold providerPartOf at h
  by_cases h1 : 0 < f1.provider.length <;> by_cases h2 : 0 < f2.provider.length
  · rw [if_pos h1, if_pos h2] at h
    have hj := str_append_cancel "provider:" _ _ (Option.some.inj h)
    have hsort := jsJoin_inj "," ',' rfl _ _
      (sorted_providerNames_wf f1.provider) (sorted_providerNames_wf f2.provider) hj
    have hperm : (f1.provider.map providerName).Perm (f2.provider.map providerName) :=
      (List.perm_insertionSort _ (f1.provider.map providerName)).symm.trans
        (hsort ▸ List.perm_insertionSort _ (f2.provider.map providerName))
    exact perm_of_map_perm providerName providerName_inj _ _ hperm
  · rw [if_pos h1, if_neg h2] at h
    exact absurd h (by simp)
  · rw [if_neg h1, if_pos h2] at h
    exact absurd h (by simp)
  · have e1 : f1.provider = [] := List.eq_nil_of_length_eq_zero (by omega)
    have e2 : f2.provider = [] := List.eq_nil_of_length_eq_zero (by omega)
    rw [e1, e2]

/-- Every filter part is a nonempty, pipe-free string. -/
lemma filterParts_wf (f : FilterParams) :
    ∀ s ∈ filterPartsOf f, s.data ≠ [] ∧ '|' ∉ s.data := by
  intro s hs
  rw [filterPartsOf_eq] at hs
  have hlit : ∀ (lit rest : String) (c : Char) (cs : List Char), lit.data = c :: cs →
      '|' ∉ lit.data → '|' ∉ rest.data → (lit ++ rest).data ≠ [] ∧ '|' ∉ (lit ++ rest).data := by
    intro lit rest c cs hl hlp hrp
    rw [String.data_append, hl]
    refine ⟨by simp, ?_⟩
    intro hmem
    rcases List.mem_append.1 (by simpa [← hl] using hmem) with hm | hm
    · exact hlp hm
    · exact hrp hm
  rcases List.mem_append.1 hs with hs' | hsp
  · rcases List.mem_append.1 hs' with hs'' | hst
    · rcases List.mem_append.1 hs'' with hsr | hsh
      · -- recency part
        rcases hr : f.recency with _ | r
        · rw [recPartOf, hr] at hsr
          simp [optPart] at hsr
        · rw [recPartOf, hr] at hsr
          have heq : s = "recency:" ++ recencyName r := by simpa [optPart] using hsr
          subst heq
          exact hlit "recency:" (recencyName r) 'r' "ecency:".data rfl (by decide)
            (recencyName_wf r)
      · -- hasPhoto part
        rcases hp : f.hasPhoto with _ | b
        · rw [photoPartOf, hp] at hsh
          simp [optPart] at hsh
        · rw [photoPartOf, hp] at hsh
          have heq : s = "hasPhoto:" ++ (if b then "true" else "false") := by
            simpa [optPart] using hsh
          subst heq
          exact hlit "hasPhoto:" _ 'h' "asPhoto:".data rfl (by decide)
            (by cases b <;> decide)
    · -- taxa part
      by_cases ht : 0 < f.taxa.length
      · rw [taxaPartOf, if_pos ht] at hst
        have heq : s = "taxa:" ++
            jsJoin "," (List.insertionSort (fun a b : String => a ≤ b) (f.taxa.map taxaName)) := by
          simpa [optPart] using hst
        subst heq
        refine hlit "taxa:" _ 't' "axa:".data rfl (by decide) ?_
        intro hmem
        rcases jsJoin_chars "," _ '|' hmem with hm | ⟨e, he, hce⟩
        · exact absurd hm (by decide)
        · rw [(List.perm_insertionSort _ _).mem_iff] at he
          obtain ⟨t, _, rfl⟩ := List.mem_map.1 he
          exact (taxaName_wf t).2.2 hce
      · rw [taxaPartOf, if_neg ht] at hst
        simp [optPart] at hst
  · -- provider part
    by_cases hv : 0 < f.provider.length
    · rw [providerPartOf, if_pos hv] at hsp
      have heq : s = "provider:" ++
          jsJoin "," (List.insertionSort (fun a b : String => a ≤ b) (f.provider.map providerName)) := by
        simpa [optPart] using hsp
      subst heq
      refine hlit "provider:" _ 'p' "rovider:".data rfl (by decide) ?_
      intro hmem
      rcases jsJoin_chars "," _ '|' hmem with hm | ⟨e, he, hce⟩
      · exact absurd hm (by decide)
      · rw [(List.perm_insertionSort _ _).mem_iff] at he
        obtain ⟨p, _, rfl⟩ := List.mem_map.1 he
        exact (providerName_wf p).2.2 hce
    · rw [providerPartOf, if_neg hv] at hsp
      simp [optPart] at hsp

/-- An empty filter-parts list means every filter is inactive. -/
lemma filterPartsOf_nil (f : FilterParams) (h : filterPartsOf f = []) :
    f.recency = none ∧ f.hasPhoto = none ∧ f.taxa = [] ∧ f.provider = [] := by
  rw [filterPartsOf_eq] at h
  rcases List.append_eq_nil.1 h with ⟨h3, h4⟩
  rcases List.append_eq_nil.1 h3 with ⟨h5, h6⟩
  rcases List.append_eq_nil.1 h5 with ⟨h1, h2⟩
  refine ⟨?_, ?_, ?_, ?_⟩
  · rcases hr : f.recency with _ | r
    · rfl
    · rw [recPartOf, hr] at h1
      simp [optPart] at h1
  · rcases hp : f.hasPhoto with _ | b
    · rfl
    · rw [photoPartOf, hp] at h2
      simp [optPart] at h2
  · by_cases ht : 0 < f.taxa.length
    · rw [taxaPartOf, if_pos ht] at h6
      simp [optPart] at h6
    · exact List.eq_nil_of_length_eq_zero (by omega)
  · by_cases hv : 0 < f.provider.length
    · rw [providerPartOf, if_pos hv] at h4
      simp [optPart] at h4
    · exact List.eq_nil_of_length_eq_zero (by omega)

/-- Semantically equal filters produce the same filter-parts list. -/
lemma filterPartsOf_semEq (f1 f2 : FilterParams) (h : SemEqFilters f1 f2) :
    filterPartsOf f1 = filterPartsOf f2 := by
  obtain ⟨h1, h2, h3, h4⟩ := h
  have hsort3 : List.insertionSort (fun a b : String => a ≤ b) (f1.taxa.map taxaName) =
      List.insertionSort (fun a b : String => a ≤ b) (f2.taxa.map taxaName) := by
    refine List.eq_of_perm_of_sorted ?_ (List.sorted_insertionSort _ _) (List.sorted_insertionSort _ _)
    exact (List.perm_insertionSort _ _).trans ((h3.map taxaName).trans (List.perm_insertionSort _ _).symm)
  have hsort4 : List.insertionSort (fun a b : String => a ≤ b) (f1.provider.map providerName) =
      List.insertionSort (fun a b : String => a ≤ b) (f2.provider.map providerName) := by
    refine List.eq_of_perm_of_sorted ?_ (List.sorted_insertionSort _ _) (List.sorted_insertionSort _ _)
    exact (List.perm_insertionSort _ _).trans ((h4.map providerName).trans (List.perm_insertionSort _ _).symm)
  have hlen3 : f1.taxa.length = f2.taxa.length := h3.length_eq
  have hlen4 : f1.provider.length = f2.provider.length := h4.length_eq
  unfold filterPartsOf
  rw [h1, h2, hsort3, hsort4, hlen3, hlen4]

/-- Unfolding `getCacheKey` with filters into fingerprint and filter suffix. -/
lemma getCacheKey_some (lat lng latDelta lngDelta : ℚ) (f : FilterParams) :
    getCacheKey lat lng latDelta lngDelta (some f) =
      if 0 < (filterPartsOf f).length then
        viewportKeyOf lat lng latDelta lngDelta ++ "|" ++ jsJoin "|" (filterPartsOf f)
      else viewportKeyOf lat lng latDelta lngDelta := rfl

/-- C2.  The cache key is canonical: (i) two requests whose viewports agree
after the 2/3-decimal rounding and whose filters have identical semantic
content (same recency, same photo tri-state, taxa and provider lists equal up
to element order) receive the same key; (ii) for a fixed viewport, two
requests whose filters differ semantically — in particular in any active
filter value — receive different keys. -/
theorem getCacheKey_canonical :
    (∀ (lat lng dlat dlng lat' lng' dlat' dlng' : ℚ) (f1 f2 : FilterParams),
      round (lat * 100) = round (lat' * 100) →
      round (lng * 100) = round (lng' * 100) →
      round (dlat * 1000) = round (dlat' * 1000) →
      round (dlng * 1000) = round (dlng' * 1000) →
      SemEqFilters f1 f2 →
      getCacheKey lat lng dlat dlng (some f1) = getCacheKey lat' lng' dlat' dlng' (some f2)) ∧
    (∀ (lat lng dlat dlng : ℚ) (f1 f2 : FilterParams),
      ¬ SemEqFilters f1 f2 →
      getCacheKey lat lng dlat dlng (some f1) ≠ getCacheKey lat lng dlat dlng (some f2)) := by
  constructor
  · intro lat lng dlat dlng lat' lng' dlat' dlng' f1 f2 h1 h2 h3 h4 hsem
    have hv : viewportKeyOf lat lng dlat dlng = viewportKeyOf lat' lng' dlat' dlng' := by
      unfold viewportKeyOf
      rw [h1, h2, h3, h4]
    rw [getCacheKey_some, getCacheKey_some, filterPartsOf_semEq f1 f2 hsem, hv]
  · intro lat lng dlat dlng f1 f2 hne hkey
    apply hne
    rw [getCacheKey_some, getCacheKey_some] at hkey
    by_cases e1 : 0 < (filterPartsOf f1).length <;> by_cases e2 : 0 < (filterPartsOf f2).length
    · rw [if_pos e1, if_pos e2] at hkey
      have hjoin : jsJoin "|" (filterPartsOf f1) = jsJoin "|" (filterPartsOf f2) :=
        str_append_cancel (viewportKeyOf lat lng dlat dlng ++ "|") _ _ (by
          rw [String.append_assoc, String.append_assoc] at hkey ⊢
          exact hkey)
      have hparts := jsJoin_inj "|" '|' rfl _ _ (filterParts_wf f1) (filterParts_wf f2) hjoin
      have hr : recPartOf f1 = recPartOf f2 := by
        rw [← (pickPart_spec f1).1, ← (pickPart_spec f2).1, hparts]
      have hh : photoPartOf f1 = photoPartOf f2 := by
        rw [← (pickPart_spec f1).2.1, ← (pickPart_spec f2).2.1, hparts]
      have htx : taxaPartOf f1 = taxaPartOf f2 := by
        rw [← (pickPart_spec f1).2.2.1, ← (pickPart_spec f2).2.2.1, hparts]
      have hpv : providerPartOf f1 = providerPartOf f2 := by
        rw [← (pickPart_spec f1).2.2.2, ← (pickPart_spec f2).2.2.2, hparts]
      exact ⟨recPartOf_inj f1 f2 hr, photoPartOf_inj f1 f2 hh,
        taxaPartOf_inj f1 f2 htx, providerPartOf_inj f1 f2 hpv⟩
    · rw [if_pos e1, if_neg e2] at hkey
      have hd := congrArg (fun s => s.data.length) hkey
      simp at hd
    · rw [if_neg e1, if_pos e2] at hkey
      have hd := congrArg (fun s => s.data.length) hkey
      simp at hd
    · have hn1 := filterPartsOf_nil f1 (List.eq_nil_of_length_eq_zero (by omega))
      have hn2 := filterPartsOf_nil f2 (List.eq_nil_of_length_eq_zero (by omega))
      refine ⟨?_, ?_, ?_, ?_⟩
      · rw [hn1.1, hn2.1]
      · rw [hn1.2.1, hn2.2.1]
      · rw [hn1.2.2.1, hn2.2.2.1]
      · rw [hn1.2.2.2, hn2.2.2.2]

/-- Witness for C2: reordering the taxa and provider lists keeps the key at a
fixed viewport, while changing the active recency value at the same viewport
and otherwise identical filters changes the key. -/
theorem getCacheKey_canonical_witness :
    getCacheKey 1 2 3 4 (some { taxa := [.Bird, .Mammal], provider := [.ebird, .inat] }) =
        getCacheKey 1 2 3 4 (some { taxa := [.Mammal, .Bird], provider := [.inat, .ebird] }) ∧
      getCacheKey 1 2 3 4 (some { recency := some .today }) ≠
        getCacheKey 1 2 3 4 (some { recency := some .this_week }) := by
  constructor
  · exact getCacheKey_canonical.1 1 2 3 4 1 2 3 4 _ _ rfl rfl rfl rfl
      ⟨rfl, rfl, by decide, by decide⟩
  · exact getCacheKey_canonical.2 1 2 3 4 _ _ (by
      rintro ⟨hr, _, _, _⟩
      exact absurd hr (by decide))
